import Mathlib

/-!
Verification of the whisker RISC-V emulator core against its specification.

The definitions below are a shallow embedding of the Rust sources:
machine words (u8/u16/u32/u64) become naturals with explicit masking or
modulus where the source wraps or truncates; HashMap becomes an optional
function; fallible operations return explicit result types; a host panic
(Rust panic, expect, todo, out-of-bounds index) becomes a distinguished
crash outcome.  Definitions come first, theorems about the claims follow.
-/

namespace Whisker

/-! ### Register files

Source: whisker/src/regs.rs.  The general-purpose file is 32 unsigned
64-bit words with index 0 hard-wired to zero; the floating-point file is
32 raw 64-bit cells with NaN-boxing for single-precision values.
-/

/-- General-purpose register file (struct GPRegisters, x: [u64; 32]). -/
structure GPRegisters where
  x : Fin 32 → Nat

/-- GPRegisters::get - reads of index 0 return 0. -/
def GPRegisters.get (r : GPRegisters) (index : Fin 32) : Nat :=
  if index.val = 0 then 0 else r.x index

/-- GPRegisters::set - writes to index 0 are ignored. -/
def GPRegisters.set (r : GPRegisters) (index : Fin 32) (value : Nat) : GPRegisters :=
  if index.val = 0 then r else ⟨fun j => if j = index then value else r.x j⟩

/-- GPRegisters::set_all - copies indices 1..=31 from the argument,
leaving cell 0 untouched. -/
def GPRegisters.set_all (r : GPRegisters) (regs : Fin 32 → Nat) : GPRegisters :=
  ⟨fun j => if j.val = 0 then r.x j else regs j⟩

/-- One debugger- or instruction-originated operation on the register file. -/
inductive GPOp where
  | setOne (index : Fin 32) (value : Nat)
  | setAll (regs : Fin 32 → Nat)

/-- Apply a single operation. -/
def GPRegisters.applyOp (r : GPRegisters) : GPOp → GPRegisters
  | .setOne i v => r.set i v
  | .setAll regs => r.set_all regs

/-- Apply a sequence of operations in order. -/
def GPRegisters.applyOps (r : GPRegisters) (ops : List GPOp) : GPRegisters :=
  ops.foldl GPRegisters.applyOp r

/-- GPRegisterIndex::ZERO (ty.rs). -/
def GPRegisterIndex.ZERO : Fin 32 := 0

/-- Floating-point register file (struct FPRegisters, x: [u64; 32]). -/
structure FPRegisters where
  x : Fin 32 → Nat

/-- FPRegisters::NAN_BOX_MASK. -/
def NAN_BOX_MASK : Nat := 0xFFFFFFFF00000000

/-- FPRegisters::get_raw. -/
def FPRegisters.get_raw (r : FPRegisters) (index : Fin 32) : Nat :=
  r.x index

/-- FPRegisters::set_raw. -/
def FPRegisters.set_raw (r : FPRegisters) (index : Fin 32) (value : Nat) : FPRegisters :=
  ⟨fun j => if j = index then value else r.x j⟩

/-- FPRegisters::get_float - the cast of the raw u64 cell to u32 keeps the
low 32 bits; SoftFloat::from_u32 and to_u32 are the identity on the 32-bit
payload (soft/float.rs), so a float value is represented by its payload. -/
def FPRegisters.get_float (r : FPRegisters) (index : Fin 32) : Nat :=
  r.get_raw index % 2 ^ 32

/-- FPRegisters::set_float - NaN-boxes the 32-bit payload. -/
def FPRegisters.set_float (r : FPRegisters) (index : Fin 32) (val : Nat) : FPRegisters :=
  r.set_raw index (val ||| NAN_BOX_MASK)

/-! ### Trap indices

Source: whisker/src/ty.rs, impl TrapIdx.  Only the cause codes used by the
claims are reproduced.
-/

/-- TrapIdx::ILLEGAL_INSTRUCTION. -/
def TrapIdx.ILLEGAL_INSTRUCTION : Nat := 2

/-- TrapIdx::INSTRUCTION_PAGE_FAULT. -/
def TrapIdx.INSTRUCTION_PAGE_FAULT : Nat := 12

/-- TrapIdx::LOAD_PAGE_FAULT. -/
def TrapIdx.LOAD_PAGE_FAULT : Nat := 13

/-- TrapIdx::STORE_PAGE_FAULT. -/
def TrapIdx.STORE_PAGE_FAULT : Nat := 15

/-! ### Memory

Source: whisker/src/mem.rs.  Pages are 4096 bytes; the mapping table keyed
by page base dispatches to physically-backed bytes, bootrom bytes, or MMIO
callbacks.  Reservations are keyed on 64-byte-aligned physical addresses.
The flat buffers become total functions together with their configured
sizes; an out-of-bounds buffer index (a Rust panic) is the crash outcome.
-/

/-- Bitwise complement on u64 (the Rust ! operator on a u64 operand). -/
def u64Not (v : Nat) : Nat := 0xFFFFFFFFFFFFFFFF ^^^ v

/-- PAGE_SIZE. -/
def PAGE_SIZE : Nat := 4096

/-- PageBase::from_addr - addr masked down to its page base. -/
def PageBase.fromAddr (addr : Nat) : Nat := addr &&& u64Not (PAGE_SIZE - 1)

/-- MemoryReservations::CACHE_LINE_SIZE. -/
def CACHE_LINE_SIZE : Nat := 64

/-- The aligned_addr computation shared by reserve, unreserve and
is_reserved: phys_addr masked down to its cache line. -/
def cacheLineAligned (physAddr : Nat) : Nat := physAddr &&& u64Not (CACHE_LINE_SIZE - 1)

/-- MemoryReservations::reserve. -/
def MemoryReservations.reserve (res : Nat → Option Nat) (physAddr hartId : Nat) :
    Nat → Option Nat :=
  fun l => if l = cacheLineAligned physAddr then some hartId else res l

/-- MemoryReservations::unreserve. -/
def MemoryReservations.unreserve (res : Nat → Option Nat) (physAddr : Nat) :
    Nat → Option Nat :=
  fun l => if l = cacheLineAligned physAddr then none else res l

/-- MemoryReservations::is_reserved. -/
def MemoryReservations.is_reserved (res : Nat → Option Nat) (physAddr hartId : Nat) : Bool :=
  match res (cacheLineAligned physAddr) with
  | some hart => hart == hartId
  | none => false

/-- PageEntry.  The MMIO on_write callback only produces a host-side
effect (e.g. printing a byte), so it does not appear in the memory state;
on_read is kept as a pure byte source. -/
inductive PageEntry where
  | physBacked (physBase : Nat)
  | bootrom (pageBase : Nat)
  | mmio (onRead : Nat → Nat)

/-- struct Memory.  phys and bootrom are the flat buffers (total functions
paired with their configured byte sizes), mappings the page table,
reservations the MemoryReservations map. -/
structure Memory where
  phys : Nat → Nat
  physSize : Nat
  bootrom : Nat → Nat
  bootromSize : Nat
  mappings : Nat → Option PageEntry
  reservations : Nat → Option Nat

/-- Outcome of a read-only memory primitive: value, failing virtual
address, or host panic (out-of-bounds flat-buffer index). -/
inductive ReadResult (α : Type) where
  | ok (val : α)
  | fault (addr : Nat)
  | crash

/-- Map over a successful read. -/
def ReadResult.map (f : α → β) : ReadResult α → ReadResult β
  | .ok v => .ok (f v)
  | .fault a => .fault a
  | .crash => .crash

/-- Outcome of a mutating memory primitive: result value plus the updated
memory, failing virtual address plus the memory mutated so far, or host
panic. -/
inductive OpResult (α : Type) where
  | ok (val : α) (mem : Memory)
  | fault (addr : Nat) (mem : Memory)
  | crash

/-- Loop body of Memory::read_slice for one byte at the given virtual
offset: page lookup, then dispatch on the page entry. -/
def Memory.readByte (m : Memory) (offset : Nat) : ReadResult Nat :=
  let base := PageBase.fromAddr offset
  match m.mappings base with
  | none => .fault offset
  | some (.physBacked physBase) =>
    let a := physBase + (offset - base)
    if a < m.physSize then .ok (m.phys a) else .crash
  | some (.bootrom pageBase) =>
    let a := pageBase + (offset - base)
    if a < m.bootromSize then .ok (m.bootrom a) else .crash
  | some (.mmio onRead) => .ok (onRead offset)

/-- Memory::read_slice - fill a buffer of n bytes starting at offset,
stopping at the first failing byte. -/
def Memory.read_slice (m : Memory) (offset n : Nat) : ReadResult (List Nat) :=
  match n with
  | 0 => .ok []
  | n + 1 =>
    match m.readByte offset with
    | .ok b =>
      match m.read_slice (offset + 1) n with
      | .ok bs => .ok (b :: bs)
      | .fault a => .fault a
      | .crash => .crash
    | .fault a => .fault a
    | .crash => .crash

/-- Loop body of Memory::write_slice for one byte: page lookup, then
dispatch; a write to a physically-backed byte first evicts any reservation
on the byte's cache line (regardless of the holding hart). -/
def Memory.writeByte (m : Memory) (offset val : Nat) : OpResult Unit :=
  let base := PageBase.fromAddr offset
  match m.mappings base with
  | none => .fault offset m
  | some (.physBacked physBase) =>
    let physAddr := physBase + (offset - base)
    let res := MemoryReservations.unreserve m.reservations physAddr
    if physAddr < m.physSize then
      .ok () { m with
               reservations := res,
               phys := fun i => if i = physAddr then val else m.phys i }
    else .crash
  | some (.bootrom pageBase) =>
    let a := pageBase + (offset - base)
    if a < m.bootromSize then
      .ok () { m with bootrom := fun i => if i = a then val else m.bootrom i }
    else .crash
  | some (.mmio _) => .ok () m

/-- Memory::write_slice - write the bytes in order; on a failing byte the
bytes already written stay written. -/
def Memory.write_slice (m : Memory) (offset : Nat) (vals : List Nat) : OpResult Unit :=
  match vals with
  | [] => .ok () m
  | v :: rest =>
    match m.writeByte offset v with
    | .ok _ m₁ => m₁.write_slice (offset + 1) rest
    | .fault a m₁ => .fault a m₁
    | .crash => .crash

/-- Little-endian reassembly of a byte list (the from_le_bytes half of the
typed read helpers). -/
def fromLeBytes (bs : List Nat) : Nat :=
  match bs with
  | [] => 0
  | b :: rest => b + 256 * fromLeBytes rest

/-- Little-endian decomposition of a value into n bytes (the to_le_bytes
half of the typed write helpers). -/
def toLeBytes (v n : Nat) : List Nat :=
  match n with
  | 0 => []
  | n + 1 => v % 256 :: toLeBytes (v / 256) n

/-- Memory::read_u8. -/
def Memory.read_u8 (m : Memory) (offset : Nat) : ReadResult Nat :=
  (m.read_slice offset 1).map fromLeBytes

/-- Memory::read_u16. -/
def Memory.read_u16 (m : Memory) (offset : Nat) : ReadResult Nat :=
  (m.read_slice offset 2).map fromLeBytes

/-- Memory::read_u32. -/
def Memory.read_u32 (m : Memory) (offset : Nat) : ReadResult Nat :=
  (m.read_slice offset 4).map fromLeBytes

/-- Memory::read_u64. -/
def Memory.read_u64 (m : Memory) (offset : Nat) : ReadResult Nat :=
  (m.read_slice offset 8).map fromLeBytes

/-- Memory::write_u8. -/
def Memory.write_u8 (m : Memory) (offset val : Nat) : OpResult Unit :=
  m.write_slice offset (toLeBytes val 1)

/-- Memory::write_u16. -/
def Memory.write_u16 (m : Memory) (offset val : Nat) : OpResult Unit :=
  m.write_slice offset (toLeBytes val 2)

/-- Memory::write_u32. -/
def Memory.write_u32 (m : Memory) (offset val : Nat) : OpResult Unit :=
  m.write_slice offset (toLeBytes val 4)

/-- Memory::write_u64. -/
def Memory.write_u64 (m : Memory) (offset val : Nat) : OpResult Unit :=
  m.write_slice offset (toLeBytes val 8)

/-- Memory::translate_address - physically-backed pages translate;
unmapped, bootrom and MMIO pages fail with the virtual address (the
source's TODO branch). -/
def Memory.translate_address (m : Memory) (virtAddr : Nat) : ReadResult Nat :=
  let base := PageBase.fromAddr virtAddr
  match m.mappings base with
  | none => .fault virtAddr
  | some (.physBacked physBase) => .ok (physBase + (virtAddr - base))
  | some (.bootrom _) => .fault virtAddr
  | some (.mmio _) => .fault virtAddr

/-- Memory::load_reserved_word - translate, install the reservation, then
read; note the reservation stays installed even if the read then fails. -/
def Memory.load_reserved_word (m : Memory) (virtAddr hartId : Nat) : OpResult Nat :=
  match m.translate_address virtAddr with
  | .fault a => .fault a m
  | .crash => .crash
  | .ok physAddr =>
    let m₁ : Memory :=
      { m with reservations := MemoryReservations.reserve m.reservations physAddr hartId }
    match m₁.read_u32 virtAddr with
    | .ok v => .ok v m₁
    | .fault a => .fault a m₁
    | .crash => .crash

/-- Memory::load_reserved_dword. -/
def Memory.load_reserved_dword (m : Memory) (virtAddr hartId : Nat) : OpResult Nat :=
  match m.translate_address virtAddr with
  | .fault a => .fault a m
  | .crash => .crash
  | .ok physAddr =>
    let m₁ : Memory :=
      { m with reservations := MemoryReservations.reserve m.reservations physAddr hartId }
    match m₁.read_u64 virtAddr with
    | .ok v => .ok v m₁
    | .fault a => .fault a m₁
    | .crash => .crash

/-- Memory::store_conditional_word - translate, check the reservation; on
a miss return false without storing; otherwise store (under the atomic
lock), clear the reservation and report whether the store wrote fully. -/
def Memory.store_conditional_word (m : Memory) (virtAddr hartId word : Nat) : OpResult Bool :=
  match m.translate_address virtAddr with
  | .fault a => .fault a m
  | .crash => .crash
  | .ok physAddr =>
    if MemoryReservations.is_reserved m.reservations physAddr hartId then
      match m.write_u32 virtAddr word with
      | .ok _ m₁ =>
        .ok true { m₁ with reservations := MemoryReservations.unreserve m₁.reservations physAddr }
      | .fault _ m₁ =>
        .ok false { m₁ with reservations := MemoryReservations.unreserve m₁.reservations physAddr }
      | .crash => .crash
    else .ok false m

/-- Memory::store_conditional_dword. -/
def Memory.store_conditional_dword (m : Memory) (virtAddr hartId dword : Nat) : OpResult Bool :=
  match m.translate_address virtAddr with
  | .fault a => .fault a m
  | .crash => .crash
  | .ok physAddr =>
    if MemoryReservations.is_reserved m.reservations physAddr hartId then
      match m.write_u64 virtAddr dword with
      | .ok _ m₁ =>
        .ok true { m₁ with reservations := MemoryReservations.unreserve m₁.reservations physAddr }
      | .fault _ m₁ =>
        .ok false { m₁ with reservations := MemoryReservations.unreserve m₁.reservations physAddr }
      | .crash => .crash
    else .ok false m

/-- Memory::atomic_op_word - under the atomic lock read the word, apply
the transform, write back a replacement when one is produced; returns the
original value. -/
def Memory.atomic_op_word (m : Memory) (virtAddr : Nat) (op : Nat → Option Nat) :
    OpResult Nat :=
  match m.read_u32 virtAddr with
  | .fault a => .fault a m
  | .crash => .crash
  | .ok word =>
    match op word with
    | some replacement =>
      match m.write_u32 virtAddr replacement with
      | .ok _ m₁ => .ok word m₁
      | .fault a m₁ => .fault a m₁
      | .crash => .crash
    | none => .ok word m

/-- Memory::atomic_op_dword. -/
def Memory.atomic_op_dword (m : Memory) (virtAddr : Nat) (op : Nat → Option Nat) :
    OpResult Nat :=
  match m.read_u64 virtAddr with
  | .fault a => .fault a m
  | .crash => .crash
  | .ok dword =>
    match op dword with
    | some replacement =>
      match m.write_u64 virtAddr replacement with
      | .ok _ m₁ => .ok dword m₁
      | .fault a m₁ => .fault a m₁
      | .crash => .crash
    | none => .ok dword m

/-! ### CSR bank

Source: whisker/src/csr.rs.  A sparse map from 12-bit address to value,
writability and minimum privilege.  The source asserts the address is
below NUM_CSRS before each lookup; the embedding keeps addresses as
naturals and the theorems only use in-range addresses.  The accessors
generated by the define_csrs macro unwrap the lookup; they are only ever
applied to banks that contain the entry, so the embedding reads through
the option.
-/

/-- CSRPrivilege. -/
inductive CSRPrivilege where
  | User
  | Supervisor
  | Hypervisor
  | Machine
deriving DecidableEq

/-- CSRInfo. -/
structure CSRInfo where
  val : Nat
  addr : Nat
  rw : Bool
  privilege : CSRPrivilege

/-- CSRInfo::is_rw. -/
def CSRInfo.is_rw (i : CSRInfo) : Bool := i.rw

/-- ControlStatusRegisters - regs: HashMap of u16 to CSRInfo. -/
structure ControlStatusRegisters where
  regs : Nat → Option CSRInfo

/-- ControlStatusRegisters::get. -/
def ControlStatusRegisters.get (c : ControlStatusRegisters) (reg : Nat) : Option CSRInfo :=
  c.regs reg

/-- The write half of get_mut as used by the macro-generated write
accessors and the CSR executor: replace the val of the entry at addr. -/
def ControlStatusRegisters.writeAddr (c : ControlStatusRegisters) (addr v : Nat) :
    ControlStatusRegisters :=
  ⟨fun a => if a = addr then (c.regs addr).map (fun i => { i with val := v }) else c.regs a⟩

/-- The read half of the macro-generated accessors (source unwraps; every
bank built by new contains the entry). -/
def ControlStatusRegisters.readAddr (c : ControlStatusRegisters) (addr : Nat) : Nat :=
  match c.regs addr with
  | some i => i.val
  | none => 0

/-- CSR address of mtvec. -/
def CSR_MTVEC : Nat := 0x305

/-- CSR address of mcause. -/
def CSR_MCAUSE : Nat := 0x342

/-- CSR address of mtval. -/
def CSR_MTVAL : Nat := 0x343

/-- CSR address of fcsr. -/
def CSR_FCSR : Nat := 0x003

/-- read_mtvec. -/
def ControlStatusRegisters.read_mtvec (c : ControlStatusRegisters) : Nat :=
  c.readAddr CSR_MTVEC

/-- read_mcause. -/
def ControlStatusRegisters.read_mcause (c : ControlStatusRegisters) : Nat :=
  c.readAddr CSR_MCAUSE

/-- read_mtval. -/
def ControlStatusRegisters.read_mtval (c : ControlStatusRegisters) : Nat :=
  c.readAddr CSR_MTVAL

/-- read_fcsr. -/
def ControlStatusRegisters.read_fcsr (c : ControlStatusRegisters) : Nat :=
  c.readAddr CSR_FCSR

/-- write_mcause. -/
def ControlStatusRegisters.write_mcause (c : ControlStatusRegisters) (v : Nat) :
    ControlStatusRegisters :=
  c.writeAddr CSR_MCAUSE v

/-- write_mtval. -/
def ControlStatusRegisters.write_mtval (c : ControlStatusRegisters) (v : Nat) :
    ControlStatusRegisters :=
  c.writeAddr CSR_MTVAL v

/-- write_fcsr. -/
def ControlStatusRegisters.write_fcsr (c : ControlStatusRegisters) (v : Nat) :
    ControlStatusRegisters :=
  c.writeAddr CSR_FCSR v

/-- ControlStatusRegisters::new - the define_csrs table: mvendorid,
marchid, mimpid read-only zero; mtvec writable initialized to 0x40000000;
mepc, mcause, mtval writable zero; fcsr writable zero, user privilege. -/
def ControlStatusRegisters.new : ControlStatusRegisters :=
  ⟨fun a =>
    if a = 0xF11 then some ⟨0, 0xF11, false, .Machine⟩
    else if a = 0xF12 then some ⟨0, 0xF12, false, .Machine⟩
    else if a = 0xF13 then some ⟨0, 0xF13, false, .Machine⟩
    else if a = 0x305 then some ⟨0x40000000, 0x305, true, .Machine⟩
    else if a = 0x341 then some ⟨0, 0x341, true, .Machine⟩
    else if a = 0x342 then some ⟨0, 0x342, true, .Machine⟩
    else if a = 0x343 then some ⟨0, 0x343, true, .Machine⟩
    else if a = 0x003 then some ⟨0, 0x003, true, .User⟩
    else none⟩

/-! ### Soft-float rounding-mode plumbing

Source: whisker/src/soft.rs.  Only the rounding-mode path is needed by the
claims; the to_sf_u8 mapping targets the constants of the external
softfloat_sys collaborator (Berkeley SoftFloat round_near_even = 0,
round_minMag = 1, round_min = 2, round_max = 3, round_near_maxMag = 4).
-/

/-- RoundingMode. -/
inductive RoundingMode where
  | RoundToNearestTieEven
  | RoundTowardsZero
  | RoundDown
  | RoundUp
  | RoundToNearestTiesMaxMagnitude
  | Dynamic
deriving DecidableEq

/-- FCSR_ROUNDING_MODE_MASK. -/
def FCSR_ROUNDING_MODE_MASK : Nat := 0b11100000

/-- RoundingMode::to_sf_u8 (softfloat_sys constants; Dynamic is
unreachable in the source and mapped to 0 here - no theorem depends on
that arm). -/
def RoundingMode.to_sf_u8 : RoundingMode → Nat
  | .RoundToNearestTieEven => 0
  | .RoundTowardsZero => 1
  | .RoundDown => 2
  | .RoundUp => 3
  | .RoundToNearestTiesMaxMagnitude => 4
  | .Dynamic => 0

/-- The value RoundingMode::write_thread_local stores into the soft-float
thread-local rounding-mode state, given the current fcsr value.  In the
source the Dynamic arm reads
(cpu.csrs.read_fcsr() AND FCSR_ROUNDING_MODE_MASK SHR 5) as u8, and in
Rust the shift binds tighter than the AND, so the mask is shifted first.
The final modulus is the cast to u8. -/
def RoundingMode.write_thread_local_value (rm : RoundingMode) (fcsr : Nat) : Nat :=
  match rm with
  | .Dynamic => (fcsr &&& (FCSR_ROUNDING_MODE_MASK >>> 5)) % 2 ^ 8
  | rm => rm.to_sf_u8

/-! ### Instructions

Sources: whisker/src/insn/int.rs, insn/csr.rs, insn/atomic.rs.  The
integer family is embedded restricted to its memory-access arms (the ones
the claims concern); the CSR and atomic families are embedded in full.
-/

/-- The memory-access arms of IntInstruction.  Offsets are the decoder's
sign-extended i64 immediates. -/
inductive IntInstruction where
  | LoadByte (dst src : Fin 32) (src_offset : Int)
  | LoadHalf (dst src : Fin 32) (src_offset : Int)
  | LoadWord (dst src : Fin 32) (src_offset : Int)
  | LoadDoubleWord (dst src : Fin 32) (src_offset : Int)
  | LoadByteZeroExtend (dst src : Fin 32) (src_offset : Int)
  | LoadHalfZeroExtend (dst src : Fin 32) (src_offset : Int)
  | LoadWordZeroExtend (dst src : Fin 32) (src_offset : Int)
  | StoreByte (dst : Fin 32) (dst_offset : Int) (src : Fin 32)
  | StoreHalf (dst : Fin 32) (dst_offset : Int) (src : Fin 32)
  | StoreWord (dst : Fin 32) (dst_offset : Int) (src : Fin 32)
  | StoreDoubleWord (dst : Fin 32) (dst_offset : Int) (src : Fin 32)

/-- CSRInstruction.  Register operands are 5-bit indices; the immediate
forms carry the zero-extended 5-bit immediate as a u64 value. -/
inductive CSRInstruction where
  | CSRReadWrite (dst src : Fin 32) (csr : Nat)
  | CSRReadAndSet (dst mask : Fin 32) (csr : Nat)
  | CSRReadAndClear (dst mask : Fin 32) (csr : Nat)
  | CSRReadWriteImm (dst : Fin 32) (src csr : Nat)
  | CSRReadAndSetImm (dst : Fin 32) (mask csr : Nat)
  | CSRReadAndClearImm (dst : Fin 32) (mask csr : Nat)

/-- AtomicInstruction - all word and doubleword variants.  The aq and rl
bits are carried but (as in the source) have no effect. -/
inductive AtomicInstruction where
  | LoadReservedWord (src dst : Fin 32) (aq rl : Bool)
  | StoreConditionalWord (src1 src2 dst : Fin 32) (aq rl : Bool)
  | SwapWord (src1 src2 dst : Fin 32) (aq rl : Bool)
  | AddWord (src1 src2 dst : Fin 32) (aq rl : Bool)
  | XorWord (src1 src2 dst : Fin 32) (aq rl : Bool)
  | AndWord (src1 src2 dst : Fin 32) (aq rl : Bool)
  | OrWord (src1 src2 dst : Fin 32) (aq rl : Bool)
  | MinWord (src1 src2 dst : Fin 32) (aq rl : Bool)
  | MaxWord (src1 src2 dst : Fin 32) (aq rl : Bool)
  | MinUnsignedWord (src1 src2 dst : Fin 32) (aq rl : Bool)
  | MaxUnsignedWord (src1 src2 dst : Fin 32) (aq rl : Bool)
  | LoadReservedDoubleWord (src dst : Fin 32) (aq rl : Bool)
  | StoreConditionalDoubleWord (src1 src2 dst : Fin 32) (aq rl : Bool)
  | SwapDoubleWord (src1 src2 dst : Fin 32) (aq rl : Bool)
  | AddDoubleWord (src1 src2 dst : Fin 32) (aq rl : Bool)
  | XorDoubleWord (src1 src2 dst : Fin 32) (aq rl : Bool)
  | AndDoubleWord (src1 src2 dst : Fin 32) (aq rl : Bool)
  | OrDoubleWord (src1 src2 dst : Fin 32) (aq rl : Bool)
  | MinDoubleWord (src1 src2 dst : Fin 32) (aq rl : Bool)
  | MaxDoubleWord (src1 src2 dst : Fin 32) (aq rl : Bool)
  | MinUnsignedDoubleWord (src1 src2 dst : Fin 32) (aq rl : Bool)
  | MaxUnsignedDoubleWord (src1 src2 dst : Fin 32) (aq rl : Bool)

/-! ### CPU core

Source: whisker/src/cpu.rs.
-/

/-- WhiskerExecState. -/
inductive WhiskerExecState where
  | Step
  | Running
  | Paused
deriving DecidableEq

/-- WhiskerExecStatus. -/
inductive WhiskerExecStatus where
  | Stepped
  | HitBreakpoint
  | Paused
deriving DecidableEq

/-- struct WhiskerCpu.  The supported-extensions bit set plays no role in
the executor-level claims and is omitted; breakpoints become a membership
predicate. -/
structure WhiskerCpu where
  mem : Memory
  registers : GPRegisters
  fp_registers : FPRegisters
  shouldTrap : Bool
  csrs : ControlStatusRegisters
  pc : Nat
  cycles : Nat
  exec_state : WhiskerExecState
  breakpoints : Nat → Bool

/-- Outcome of WhiskerCpu::execute_one: Ok(()), Err(status), or a host
panic carrying the state at the panic site. -/
inductive ExecOutcome where
  | ok (cpu : WhiskerCpu)
  | err (status : WhiskerExecStatus) (cpu : WhiskerCpu)
  | crash (cpu : WhiskerCpu)

/-- WhiskerCpu::request_trap - records mcause and mtval and sets the
trap-pending flag; the trap is entered at the start of the next step. -/
def WhiskerCpu.request_trap (cpu : WhiskerCpu) (trap mtval : Nat) : WhiskerCpu :=
  { cpu with
    csrs := (cpu.csrs.write_mcause trap).write_mtval mtval,
    shouldTrap := true }

/-- WhiskerCpu::exec_trap - reads mtvec, sets PC to it, clears the
trap-pending flag, and then hits the panic left at the end of the
function body (the source ends in a panic printing the old pc instead of
returning Ok). -/
def WhiskerCpu.exec_trap (cpu : WhiskerCpu) : ExecOutcome :=
  .crash { cpu with pc := cpu.csrs.read_mtvec, shouldTrap := false }

/-- WhiskerCpu::execute_one, split at the trap-pending decision: the cycle
counter increments, then a pending trap routes to exec_trap; the rest
parameter stands for the remainder of the source body (breakpoint check,
fetch, size bump and per-family dispatch), which the trap-pending path
never reaches. -/
def WhiskerCpu.execute_one (rest : WhiskerCpu → ExecOutcome) (cpu : WhiskerCpu) : ExecOutcome :=
  let cpu := { cpu with cycles := cpu.cycles + 1 }
  if cpu.shouldTrap then cpu.exec_trap else rest cpu

/-- u64::wrapping_add_signed - effective-address computation of the
load/store executors. -/
def wrapAddSigned (a : Nat) (off : Int) : Nat :=
  (((a : Int) + off) % (2 ^ 64 : Int)).toNat

/-- WhiskerCpu::execute_i_insn restricted to the embedded memory-access
arms.  A failing translation requests the load/store page-fault trap and
ends the handler; none models a host panic (out-of-bounds flat buffer). -/
def WhiskerCpu.execute_i_insn (cpu : WhiskerCpu) (insn : IntInstruction) : Option WhiskerCpu :=
  match insn with
  | .LoadByte dst src src_offset =>
    let offset := wrapAddSigned (cpu.registers.get src) src_offset
    match cpu.mem.read_u8 offset with
    | .fault addr => some (cpu.request_trap TrapIdx.LOAD_PAGE_FAULT addr)
    | .crash => none
    | .ok val =>
      let reg_val := cpu.registers.get dst
      let v := (reg_val &&& 0xFFFFFFFFFFFFFF00) ||| val
      some { cpu with registers := cpu.registers.set dst v }
  | .LoadHalf dst src src_offset =>
    let offset := wrapAddSigned (cpu.registers.get src) src_offset
    match cpu.mem.read_u16 offset with
    | .fault addr => some (cpu.request_trap TrapIdx.LOAD_PAGE_FAULT addr)
    | .crash => none
    | .ok val =>
      let reg_val := cpu.registers.get dst
      let v := (reg_val &&& 0xFFFFFFFFFFFF0000) ||| val
      some { cpu with registers := cpu.registers.set dst v }
  | .LoadWord dst src src_offset =>
    let offset := wrapAddSigned (cpu.registers.get src) src_offset
    match cpu.mem.read_u32 offset with
    | .fault addr => some (cpu.request_trap TrapIdx.LOAD_PAGE_FAULT addr)
    | .crash => none
    | .ok val =>
      let reg_val := cpu.registers.get dst
      let v := (reg_val &&& 0xFFFFFFFF00000000) ||| val
      some { cpu with registers := cpu.registers.set dst v }
  | .LoadDoubleWord dst src src_offset =>
    let offset := wrapAddSigned (cpu.registers.get src) src_offset
    match cpu.mem.read_u64 offset with
    | .fault addr => some (cpu.request_trap TrapIdx.LOAD_PAGE_FAULT addr)
    | .crash => none
    | .ok val => some { cpu with registers := cpu.registers.set dst val }
  | .LoadByteZeroExtend dst src src_offset =>
    let offset := wrapAddSigned (cpu.registers.get src) src_offset
    match cpu.mem.read_u8 offset with
    | .fault addr => some (cpu.request_trap TrapIdx.LOAD_PAGE_FAULT addr)
    | .crash => none
    | .ok val => some { cpu with registers := cpu.registers.set dst val }
  | .LoadHalfZeroExtend dst src src_offset =>
    let offset := wrapAddSigned (cpu.registers.get src) src_offset
    match cpu.mem.read_u16 offset with
    | .fault addr => some (cpu.request_trap TrapIdx.LOAD_PAGE_FAULT addr)
    | .crash => none
    | .ok val => some { cpu with registers := cpu.registers.set dst val }
  | .LoadWordZeroExtend dst src src_offset =>
    let offset := wrapAddSigned (cpu.registers.get src) src_offset
    match cpu.mem.read_u32 offset with
    | .fault addr => some (cpu.request_trap TrapIdx.LOAD_PAGE_FAULT addr)
    | .crash => none
    | .ok val => some { cpu with registers := cpu.registers.set dst val }
  | .StoreByte dst dst_offset src =>
    let offset := wrapAddSigned (cpu.registers.get dst) dst_offset
    let val := cpu.registers.get src % 2 ^ 8
    match cpu.mem.write_u8 offset val with
    | .ok _ m₁ => some { cpu with mem := m₁ }
    | .fault addr _ => some (cpu.request_trap TrapIdx.STORE_PAGE_FAULT addr)
    | .crash => none
  | .StoreHalf dst dst_offset src =>
    let offset := wrapAddSigned (cpu.registers.get dst) dst_offset
    let val := cpu.registers.get src % 2 ^ 16
    match cpu.mem.write_u16 offset val with
    | .ok _ m₁ => some { cpu with mem := m₁ }
    | .fault addr _ => some (cpu.request_trap TrapIdx.STORE_PAGE_FAULT addr)
    | .crash => none
  | .StoreWord dst dst_offset src =>
    let offset := wrapAddSigned (cpu.registers.get dst) dst_offset
    let val := cpu.registers.get src % 2 ^ 32
    match cpu.mem.write_u32 offset val with
    | .ok _ m₁ => some { cpu with mem := m₁ }
    | .fault addr _ => some (cpu.request_trap TrapIdx.STORE_PAGE_FAULT addr)
    | .crash => none
  | .StoreDoubleWord dst dst_offset src =>
    let offset := wrapAddSigned (cpu.registers.get dst) dst_offset
    let val := cpu.registers.get src
    match cpu.mem.write_u64 offset val with
    | .ok _ m₁ => some { cpu with mem := m₁ }
    | .fault addr _ => some (cpu.request_trap TrapIdx.STORE_PAGE_FAULT addr)
    | .crash => none

/-- The mtval value the source passes with CSR illegal-instruction traps. -/
def CSR_TRAP_MTVAL : Nat := 0

/-- WhiskerCpu::exec_csr.  The get_csr macro traps on an absent CSR; the
get_csr_mut macro additionally traps when the CSR is not writable.  On the
read-and-set and read-and-clear forms the writability check is skipped
entirely when the mask operand is r0 (register form) or 0 (immediate
form).  Note the source performs the destination write before it reads the
mask register for the CSR update. -/
def WhiskerCpu.exec_csr (cpu : WhiskerCpu) (insn : CSRInstruction) : WhiskerCpu :=
  match insn with
  | .CSRReadWrite dst src csr =>
    match cpu.csrs.get csr with
    | none => cpu.request_trap TrapIdx.ILLEGAL_INSTRUCTION CSR_TRAP_MTVAL
    | some info =>
      if !info.is_rw then cpu.request_trap TrapIdx.ILLEGAL_INSTRUCTION CSR_TRAP_MTVAL
      else
        let regs₁ :=
          if dst ≠ GPRegisterIndex.ZERO then cpu.registers.set dst info.val else cpu.registers
        { cpu with registers := regs₁, csrs := cpu.csrs.writeAddr csr (regs₁.get src) }
  | .CSRReadAndSet dst mask csr =>
    if mask ≠ GPRegisterIndex.ZERO then
      match cpu.csrs.get csr with
      | none => cpu.request_trap TrapIdx.ILLEGAL_INSTRUCTION CSR_TRAP_MTVAL
      | some info =>
        if !info.is_rw then cpu.request_trap TrapIdx.ILLEGAL_INSTRUCTION CSR_TRAP_MTVAL
        else
          let regs₁ := cpu.registers.set dst info.val
          { cpu with registers := regs₁, csrs := cpu.csrs.writeAddr csr (info.val ||| regs₁.get mask) }
    else
      match cpu.csrs.get csr with
      | none => cpu.request_trap TrapIdx.ILLEGAL_INSTRUCTION CSR_TRAP_MTVAL
      | some info => { cpu with registers := cpu.registers.set dst info.val }
  | .CSRReadAndClear dst mask csr =>
    if mask ≠ GPRegisterIndex.ZERO then
      match cpu.csrs.get csr with
      | none => cpu.request_trap TrapIdx.ILLEGAL_INSTRUCTION CSR_TRAP_MTVAL
      | some info =>
        if !info.is_rw then cpu.request_trap TrapIdx.ILLEGAL_INSTRUCTION CSR_TRAP_MTVAL
        else
          let regs₁ := cpu.registers.set dst info.val
          { cpu with registers := regs₁, csrs := cpu.csrs.writeAddr csr (info.val &&& regs₁.get mask) }
    else
      match cpu.csrs.get csr with
      | none => cpu.request_trap TrapIdx.ILLEGAL_INSTRUCTION CSR_TRAP_MTVAL
      | some info => { cpu with registers := cpu.registers.set dst info.val }
  | .CSRReadWriteImm dst src csr =>
    match cpu.csrs.get csr with
    | none => cpu.request_trap TrapIdx.ILLEGAL_INSTRUCTION CSR_TRAP_MTVAL
    | some info =>
      if !info.is_rw then cpu.request_trap TrapIdx.ILLEGAL_INSTRUCTION CSR_TRAP_MTVAL
      else
        let regs₁ :=
          if dst ≠ GPRegisterIndex.ZERO then cpu.registers.set dst info.val else cpu.registers
        { cpu with registers := regs₁, csrs := cpu.csrs.writeAddr csr src }
  | .CSRReadAndSetImm dst mask csr =>
    if mask ≠ 0 then
      match cpu.csrs.get csr with
      | none => cpu.request_trap TrapIdx.ILLEGAL_INSTRUCTION CSR_TRAP_MTVAL
      | some info =>
        if !info.is_rw then cpu.request_trap TrapIdx.ILLEGAL_INSTRUCTION CSR_TRAP_MTVAL
        else
          { cpu with
            registers := cpu.registers.set dst info.val,
            csrs := cpu.csrs.writeAddr csr (info.val ||| mask) }
    else
      match cpu.csrs.get csr with
      | none => cpu.request_trap TrapIdx.ILLEGAL_INSTRUCTION CSR_TRAP_MTVAL
      | some info => { cpu with registers := cpu.registers.set dst info.val }
  | .CSRReadAndClearImm dst mask csr =>
    if mask ≠ 0 then
      match cpu.csrs.get csr with
      | none => cpu.request_trap TrapIdx.ILLEGAL_INSTRUCTION CSR_TRAP_MTVAL
      | some info =>
        if !info.is_rw then cpu.request_trap TrapIdx.ILLEGAL_INSTRUCTION CSR_TRAP_MTVAL
        else
          { cpu with
            registers := cpu.registers.set dst info.val,
            csrs := cpu.csrs.writeAddr csr (info.val &&& mask) }
    else
      match cpu.csrs.get csr with
      | none => cpu.request_trap TrapIdx.ILLEGAL_INSTRUCTION CSR_TRAP_MTVAL
      | some info => { cpu with registers := cpu.registers.set dst info.val }

/-- Interpret the low 32 bits of a value as a signed i32 (the Rust cast
word as i32). -/
def toI32 (v : Nat) : Int :=
  if v % 2 ^ 32 < 2 ^ 31 then (v % 2 ^ 32 : Nat) else (v % 2 ^ 32 : Nat) - 2 ^ 32

/-- Reinterpret an i32 as its u32 bit pattern (the Rust cast back). -/
def ofI32 (v : Int) : Nat := (v % (2 ^ 32 : Int)).toNat

/-- Interpret a u64 value as a signed i64. -/
def toI64 (v : Nat) : Int :=
  if v % 2 ^ 64 < 2 ^ 63 then (v % 2 ^ 64 : Nat) else (v % 2 ^ 64 : Nat) - 2 ^ 64

/-- Reinterpret an i64 as its u64 bit pattern. -/
def ofI64 (v : Int) : Nat := (v % (2 ^ 64 : Int)).toNat

/-- The fixed hart id of the single-hart model (const HART_ID in
exec_atomic_insn). -/
def HART_ID : Nat := 0

/-- WhiskerCpu::exec_atomic_insn.  Every memory outcome goes through an
expect, so a failing translation or read/write is a host panic (none), not
a trap.  In the AMO closures the destination register receives the loaded
value before the source-2 operand is read. -/
def WhiskerCpu.exec_atomic_insn (cpu : WhiskerCpu) (insn : AtomicInstruction) :
    Option WhiskerCpu :=
  match insn with
  | .LoadReservedWord src dst _aq _rl =>
    let addr := cpu.registers.get src
    match cpu.mem.load_reserved_word addr HART_ID with
    | .ok val m₁ => some { cpu with mem := m₁, registers := cpu.registers.set dst val }
    | .fault _ _ => none
    | .crash => none
  | .StoreConditionalWord src1 src2 dst _aq _rl =>
    let addr := cpu.registers.get src1
    let val := cpu.registers.get src2 % 2 ^ 32
    match cpu.mem.store_conditional_word addr HART_ID val with
    | .ok success m₁ =>
      if success then some { cpu with mem := m₁, registers := cpu.registers.set dst 0 }
      else some { cpu with mem := m₁, registers := cpu.registers.set dst 1 }
    | .fault _ _ => none
    | .crash => none
  | .SwapWord src1 src2 dst _aq _rl =>
    let addr := cpu.registers.get src1
    match cpu.mem.atomic_op_word addr
        (fun word => some ((cpu.registers.set dst word).get src2 % 2 ^ 32)) with
    | .ok word m₁ => some { cpu with mem := m₁, registers := cpu.registers.set dst word }
    | .fault _ _ => none
    | .crash => none
  | .AddWord src1 src2 dst _aq _rl =>
    let addr := cpu.registers.get src1
    match cpu.mem.atomic_op_word addr
        (fun word => some ((word + (cpu.registers.set dst word).get src2 % 2 ^ 32) % 2 ^ 32)) with
    | .ok word m₁ => some { cpu with mem := m₁, registers := cpu.registers.set dst word }
    | .fault _ _ => none
    | .crash => none
  | .XorWord src1 src2 dst _aq _rl =>
    let addr := cpu.registers.get src1
    match cpu.mem.atomic_op_word addr
        (fun word => some (word ^^^ (cpu.registers.set dst word).get src2 % 2 ^ 32)) with
    | .ok word m₁ => some { cpu with mem := m₁, registers := cpu.registers.set dst word }
    | .fault _ _ => none
    | .crash => none
  | .AndWord src1 src2 dst _aq _rl =>
    let addr := cpu.registers.get src1
    match cpu.mem.atomic_op_word addr
        (fun word => some (word &&& (cpu.registers.set dst word).get src2 % 2 ^ 32)) with
    | .ok word m₁ => some { cpu with mem := m₁, registers := cpu.registers.set dst word }
    | .fault _ _ => none
    | .crash => none
  | .OrWord src1 src2 dst _aq _rl =>
    let addr := cpu.registers.get src1
    match cpu.mem.atomic_op_word addr
        (fun word => some (word ||| (cpu.registers.set dst word).get src2 % 2 ^ 32)) with
    | .ok word m₁ => some { cpu with mem := m₁, registers := cpu.registers.set dst word }
    | .fault _ _ => none
    | .crash => none
  | .MinWord src1 src2 dst _aq _rl =>
    let addr := cpu.registers.get src1
    match cpu.mem.atomic_op_word addr
        (fun word =>
          some (ofI32 (min (toI32 word) (toI32 ((cpu.registers.set dst word).get src2))))) with
    | .ok word m₁ => some { cpu with mem := m₁, registers := cpu.registers.set dst word }
    | .fault _ _ => none
    | .crash => none
  | .MaxWord src1 src2 dst _aq _rl =>
    let addr := cpu.registers.get src1
    match cpu.mem.atomic_op_word addr
        (fun word =>
          some (ofI32 (max (toI32 word) (toI32 ((cpu.registers.set dst word).get src2))))) with
    | .ok word m₁ => some { cpu with mem := m₁, registers := cpu.registers.set dst word }
    | .fault _ _ => none
    | .crash => none
  | .MinUnsignedWord src1 src2 dst _aq _rl =>
    let addr := cpu.registers.get src1
    match cpu.mem.atomic_op_word addr
        (fun word => some (min word ((cpu.registers.set dst word).get src2 % 2 ^ 32))) with
    | .ok word m₁ => some { cpu with mem := m₁, registers := cpu.registers.set dst word }
    | .fault _ _ => none
    | .crash => none
  | .MaxUnsignedWord src1 src2 dst _aq _rl =>
    let addr := cpu.registers.get src1
    match cpu.mem.atomic_op_word addr
        (fun word => some (max word ((cpu.registers.set dst word).get src2 % 2 ^ 32))) with
    | .ok word m₁ => some { cpu with mem := m₁, registers := cpu.registers.set dst word }
    | .fault _ _ => none
    | .crash => none
  | .LoadReservedDoubleWord src dst _aq _rl =>
    let addr := cpu.registers.get src
    match cpu.mem.load_reserved_dword addr HART_ID with
    | .ok val m₁ => some { cpu with mem := m₁, registers := cpu.registers.set dst val }
    | .fault _ _ => none
    | .crash => none
  | .StoreConditionalDoubleWord src1 src2 dst _aq _rl =>
    let addr := cpu.registers.get src1
    let val := cpu.registers.get src2
    match cpu.mem.store_conditional_dword addr HART_ID val with
    | .ok success m₁ =>
      if success then some { cpu with mem := m₁, registers := cpu.registers.set dst 0 }
      else some { cpu with mem := m₁, registers := cpu.registers.set dst 1 }
    | .fault _ _ => none
    | .crash => none
  | .SwapDoubleWord src1 src2 dst _aq _rl =>
    let addr := cpu.registers.get src1
    match cpu.mem.atomic_op_dword addr
        (fun dword => some ((cpu.registers.set dst dword).get src2)) with
    | .ok dword m₁ => some { cpu with mem := m₁, registers := cpu.registers.set dst dword }
    | .fault _ _ => none
    | .crash => none
  | .AddDoubleWord src1 src2 dst _aq _rl =>
    let addr := cpu.registers.get src1
    match cpu.mem.atomic_op_dword addr
        (fun dword => some ((dword + (cpu.registers.set dst dword).get src2) % 2 ^ 64)) with
    | .ok dword m₁ => some { cpu with mem := m₁, registers := cpu.registers.set dst dword }
    | .fault _ _ => none
    | .crash => none
  | .XorDoubleWord src1 src2 dst _aq _rl =>
    let addr := cpu.registers.get src1
    match cpu.mem.atomic_op_dword addr
        (fun dword => some (dword ^^^ (cpu.registers.set dst dword).get src2)) with
    | .ok dword m₁ => some { cpu with mem := m₁, registers := cpu.registers.set dst dword }
    | .fault _ _ => none
    | .crash => none
  | .AndDoubleWord src1 src2 dst _aq _rl =>
    let addr := cpu.registers.get src1
    match cpu.mem.atomic_op_dword addr
        (fun dword => some (dword &&& (cpu.registers.set dst dword).get src2)) with
    | .ok dword m₁ => some { cpu with mem := m₁, registers := cpu.registers.set dst dword }
    | .fault _ _ => none
    | .crash => none
  | .OrDoubleWord src1 src2 dst _aq _rl =>
    let addr := cpu.registers.get src1
    match cpu.mem.atomic_op_dword addr
        (fun dword => some (dword ||| (cpu.registers.set dst dword).get src2)) with
    | .ok dword m₁ => some { cpu with mem := m₁, registers := cpu.registers.set dst dword }
    | .fault _ _ => none
    | .crash => none
  | .MinDoubleWord src1 src2 dst _aq _rl =>
    let addr := cpu.registers.get src1
    match cpu.mem.atomic_op_dword addr
        (fun dword =>
          some (ofI64 (min (toI64 dword) (toI64 ((cpu.registers.set dst dword).get src2))))) with
    | .ok dword m₁ => some { cpu with mem := m₁, registers := cpu.registers.set dst dword }
    | .fault _ _ => none
    | .crash => none
  | .MaxDoubleWord src1 src2 dst _aq _rl =>
    let addr := cpu.registers.get src1
    match cpu.mem.atomic_op_dword addr
        (fun dword =>
          some (ofI64 (max (toI64 dword) (toI64 ((cpu.registers.set dst dword).get src2))))) with
    | .ok dword m₁ => some { cpu with mem := m₁, registers := cpu.registers.set dst dword }
    | .fault _ _ => none
    | .crash => none
  | .MinUnsignedDoubleWord src1 src2 dst _aq _rl =>
    let addr := cpu.registers.get src1
    match cpu.mem.atomic_op_dword addr
        (fun dword => some (min dword ((cpu.registers.set dst dword).get src2))) with
    | .ok dword m₁ => some { cpu with mem := m₁, registers := cpu.registers.set dst dword }
    | .fault _ _ => none
    | .crash => none
  | .MaxUnsignedDoubleWord src1 src2 dst _aq _rl =>
    let addr := cpu.registers.get src1
    match cpu.mem.atomic_op_dword addr
        (fun dword => some (max dword ((cpu.registers.set dst dword).get src2))) with
    | .ok dword m₁ => some { cpu with mem := m₁, registers := cpu.registers.set dst dword }
    | .fault _ _ => none
    | .crash => none

/-- The register holding the effective address of an atomic instruction
(src for the load-reserved forms, src1 for the rest). -/
def AtomicInstruction.addrReg : AtomicInstruction → Fin 32
  | .LoadReservedWord src _ _ _ => src
  | .StoreConditionalWord src1 _ _ _ _ => src1
  | .SwapWord src1 _ _ _ _ => src1
  | .AddWord src1 _ _ _ _ => src1
  | .XorWord src1 _ _ _ _ => src1
  | .AndWord src1 _ _ _ _ => src1
  | .OrWord src1 _ _ _ _ => src1
  | .MinWord src1 _ _ _ _ => src1
  | .MaxWord src1 _ _ _ _ => src1
  | .MinUnsignedWord src1 _ _ _ _ => src1
  | .MaxUnsignedWord src1 _ _ _ _ => src1
  | .LoadReservedDoubleWord src _ _ _ => src
  | .StoreConditionalDoubleWord src1 _ _ _ _ => src1
  | .SwapDoubleWord src1 _ _ _ _ => src1
  | .AddDoubleWord src1 _ _ _ _ => src1
  | .XorDoubleWord src1 _ _ _ _ => src1
  | .AndDoubleWord src1 _ _ _ _ => src1
  | .OrDoubleWord src1 _ _ _ _ => src1
  | .MinDoubleWord src1 _ _ _ _ => src1
  | .MaxDoubleWord src1 _ _ _ _ => src1
  | .MinUnsignedDoubleWord src1 _ _ _ _ => src1
  | .MaxUnsignedDoubleWord src1 _ _ _ _ => src1

/-- Whether an atomic instruction is one of the four load-reserved or
store-conditional forms (the ones that call translate_address through
their memory primitive). -/
def AtomicInstruction.isLrSc : AtomicInstruction → Bool
  | .LoadReservedWord _ _ _ _ => true
  | .StoreConditionalWord _ _ _ _ _ => true
  | .LoadReservedDoubleWord _ _ _ _ => true
  | .StoreConditionalDoubleWord _ _ _ _ _ => true
  | _ => false

/-! ### Decoder dispatch

Source: whisker/src/insn.rs (Instruction::fetch_instruction) and
src/util.rs (extract_bits_16).
-/

/-- util::extract_bits_16 - extracts bits start..=stop of a u16.  The
left shift building high_mask wraps at 16 bits in Rust, hence the
modulus. -/
def extract_bits_16 (val start stop : Nat) : Nat :=
  let low_mask := (0xFFFF >>> start) <<< start
  let high_mask := ((0xFFFF <<< (16 - stop - 1)) % 2 ^ 16) >>> (16 - stop - 1)
  (val &&& low_mask &&& high_mask) >>> start

/-- Result of the insn16/insn32 parse functions: a parsed instruction, or
decode failure carrying the trap (cause, mtval) the parser requested. -/
inductive FetchParse (α : Type) where
  | ok (insn : α)
  | failed (cause mtval : Nat)

/-- Result of Instruction::fetch_instruction: instruction and size, decode
failure carrying the requested trap, or a host panic (the todo arms for
48-bit and 64-bit instructions). -/
inductive FetchResult (α : Type) where
  | ok (insn : α) (size : Nat)
  | failed (cause mtval : Nat)
  | crash

/-- Instruction::fetch_instruction, parametrized over the insn16 and
insn32 parse functions (their internals are irrelevant to the dispatch
claims).  Mirrors the source dispatch on the first parcel: compressed,
32-bit, 48-bit prefix, 64-bit prefix, otherwise illegal. -/
def fetch_instruction {α : Type} (supportCompressed : Bool) (m : Memory) (pc : Nat)
    (parse16 parse32 : Nat → FetchParse α) : FetchResult α :=
  match m.read_u16 pc with
  | .fault addr => .failed TrapIdx.INSTRUCTION_PAGE_FAULT addr
  | .crash => .crash
  | .ok parcel1 =>
    if extract_bits_16 parcel1 0 1 ≠ 0b11 then
      if supportCompressed then
        match parse16 parcel1 with
        | .ok insn => .ok insn 2
        | .failed c v => .failed c v
      else .failed TrapIdx.ILLEGAL_INSTRUCTION pc
    else if extract_bits_16 parcel1 2 4 ≠ 0b111 then
      match m.read_u32 pc with
      | .fault addr => .failed TrapIdx.INSTRUCTION_PAGE_FAULT addr
      | .crash => .crash
      | .ok full_parcel =>
        match parse32 full_parcel with
        | .ok insn => .ok insn 4
        | .failed c v => .failed c v
    else if extract_bits_16 parcel1 0 5 = 0b011111 then
      if supportCompressed then .crash
      else .failed TrapIdx.ILLEGAL_INSTRUCTION pc
    else if extract_bits_16 parcel1 0 6 = 0b0111111 then
      if supportCompressed then .crash
      else .failed TrapIdx.ILLEGAL_INSTRUCTION pc
    else .failed TrapIdx.ILLEGAL_INSTRUCTION pc

/-- The combined effect of one byte write to a physically-backed page, as
produced by the physBacked arm of writeByte: evict the reservation on the
byte's cache line, then store the byte in the flat buffer.  Used to state
evaluation lemmas compactly. -/
def physWrite (m : Memory) (pa v : Nat) : Memory :=
  { m with
    reservations := MemoryReservations.unreserve m.reservations pa,
    phys := fun i => if i = pa then v else m.phys i }

/-! ### Concrete fixtures used by witnesses and counterexamples -/

/-- A memory with no mappings at all. -/
def emptyMem : Memory :=
  ⟨fun _ => 0, 0, fun _ => 0, 0, fun _ => none, fun _ => none⟩

/-- A memory whose only page is a bootrom page at virtual 0, holding the
byte 0x1F at offset 0 and zeroes elsewhere. -/
def romMem : Memory :=
  ⟨fun _ => 0, 0, fun i => if i = 0 then 0x1F else 0, 4096,
   fun b => if b = 0 then some (.bootrom 0) else none, fun _ => none⟩

/-- A memory with a single physically-backed page: virtual page 0x1000
mapped at physical offset 0 of a 4096-byte buffer of zeroes. -/
def physMem : Memory :=
  ⟨fun _ => 0, 4096, fun _ => 0, 0,
   fun b => if b = 0x1000 then some (.physBacked 0) else none, fun _ => none⟩

/-- A freshly constructed CPU around the empty memory. -/
def cpuEmpty : WhiskerCpu :=
  ⟨emptyMem, ⟨fun _ => 0⟩, ⟨fun _ => 0⟩, false, ControlStatusRegisters.new, 0, 0,
   .Paused, fun _ => false⟩

/-- A CPU over the physically-backed test memory with register x1 holding
the mapped address 0x1000. -/
def cpuPhys : WhiskerCpu :=
  ⟨physMem, ⟨fun j => if j.val = 1 then 0x1000 else 0⟩, ⟨fun _ => 0⟩, false,
   ControlStatusRegisters.new, 0, 0, .Paused, fun _ => false⟩

/-- A CPU over the bootrom-only test memory with all registers zero (so
register-held addresses point at the bootrom page at 0). -/
def cpuRom : WhiskerCpu :=
  ⟨romMem, ⟨fun _ => 0⟩, ⟨fun _ => 0⟩, false, ControlStatusRegisters.new, 0, 0,
   .Paused, fun _ => false⟩

/-- The physically-backed test memory with the line of physical address 0
reserved by hart 5. -/
def resMem : Memory :=
  { physMem with reservations := fun l => if l = 0 then some 5 else none }

/-- A CPU over the post-eviction memory used by the C3 witness. -/
def cpuRes : WhiskerCpu :=
  { cpuPhys with mem := physWrite resMem 0 7 }

end Whisker

namespace Whisker

/-! ### Bit-level helper lemmas

The Rust sources manipulate u64/u16 values with shifts, ands and ors.
These lemmas convert the fixed-mask bit operations into arithmetic form.
-/

/-- A number of the form 2^w - 2^k acts, under land, as the selector of
bits k..w-1: the result is x truncated to w bits with the low k bits
cleared. -/
theorem land_two_pow_sub (x w k : Nat) (hk : k ≤ w) :
    x &&& (2 ^ w - 2 ^ k) = x % 2 ^ w / 2 ^ k * 2 ^ k := by
  have hmask : 2 ^ w - 2 ^ k = 2 ^ k * (2 ^ (w - k) - 1) := by
    have hpow : 2 ^ k * 2 ^ (w - k) = 2 ^ w := by
      rw [← pow_add]
      congr 1
      omega
    have h1 : 1 ≤ 2 ^ (w - k) := Nat.one_le_two_pow
    have hdistrib : 2 ^ k * (2 ^ (w - k) - 1) + 2 ^ k * 1 = 2 ^ k * 2 ^ (w - k) := by
      rw [← Nat.left_distrib]
      congr 1
      omega
    omega
  apply Nat.eq_of_testBit_eq
  intro i
  rw [hmask, Nat.testBit_and, Nat.testBit_mul_pow_two]
  have hdivpow : x % 2 ^ w / 2 ^ k * 2 ^ k = 2 ^ k * (x % 2 ^ w / 2 ^ k) := by ring
  rw [hdivpow, Nat.testBit_mul_pow_two]
  by_cases hik : k ≤ i
  · simp only [ge_iff_le, hik, decide_eq_true_eq, decide_True, Bool.true_and]
    rw [Nat.testBit_two_pow_sub_one]
    have hdiv : x % 2 ^ w / 2 ^ k = (x % 2 ^ w) >>> k := (Nat.shiftRight_eq_div_pow _ _).symm
    rw [hdiv, Nat.testBit_shiftRight, Nat.testBit_mod_two_pow]
    have hki : k + (i - k) = i := by omega
    rw [hki]
    by_cases hiw : i < w
    · have : i - k < w - k := by omega
      simp [this, hiw]
    · have : ¬(i - k < w - k) := by omega
      simp [this, hiw]
  · simp [ge_iff_le, hik]

/-- Undo the land/lor merge: clearing the low k bits of x and or-ing in a
value below 2^k is the same as replacing the low k bits. -/
theorem land_lor_merge (x m w k : Nat) (hk : k ≤ w) (hx : x < 2 ^ w) (hm : m < 2 ^ k) :
    (x &&& (2 ^ w - 2 ^ k)) ||| m = 2 ^ k * (x / 2 ^ k) + m := by
  rw [land_two_pow_sub x w k hk, Nat.mod_eq_of_lt hx]
  have hcomm : x / 2 ^ k * 2 ^ k = 2 ^ k * (x / 2 ^ k) := by ring
  rw [hcomm, ← Nat.mul_add_lt_is_or hm]

/-- The page base of an address, in arithmetic form. -/
theorem pageBase_fromAddr_eq (a : Nat) (ha : a < 2 ^ 64) :
    PageBase.fromAddr a = a - a % 4096 := by
  have hmask : u64Not (PAGE_SIZE - 1) = 2 ^ 64 - 2 ^ 12 := by decide
  rw [PageBase.fromAddr, hmask, land_two_pow_sub a 64 12 (by omega), Nat.mod_eq_of_lt ha]
  omega

/-! ### Theorems for claims C7 and C8 -/

/-- Claim C7: across every sequence of register-file operations, reads of
index 0 return 0; a direct set of a register with nonzero index stores the
written value, and a bulk set_all stores the given values at nonzero
indices (writes to index 0 being silently discarded in both forms). -/
theorem C7_gp_register_zero_invariant
    (s : GPRegisters) (ops : List GPOp) (i : Fin 32) (v : Nat) (regs : Fin 32 → Nat)
    (hi : i.val ≠ 0) :
    (s.applyOps ops).get ⟨0, by omega⟩ = 0 ∧
    (s.set i v).get i = v ∧
    (s.set_all regs).get i = regs i := by
  refine ⟨?_, ?_, ?_⟩
  · simp [GPRegisters.get]
  · simp [GPRegisters.get, GPRegisters.set, hi]
  · simp [GPRegisters.get, GPRegisters.set_all, hi]

/-- Witness for C7 at a concrete input. -/
theorem C7_gp_register_zero_invariant_witness :
    (1 : Fin 32).val ≠ 0 ∧
    ((GPRegisters.mk fun _ => 0).applyOps [.setOne 1 7, .setAll fun _ => 9]).get ⟨0, by omega⟩ = 0 ∧
    ((GPRegisters.mk fun _ => 0).set 1 7).get 1 = 7 ∧
    ((GPRegisters.mk fun _ => 0).set_all fun _ => 9).get 1 = 9 :=
  ⟨by decide,
   C7_gp_register_zero_invariant (GPRegisters.mk fun _ => 0)
     [.setOne 1 7, .setAll fun _ => 9] 1 7 (fun _ => 9) (by decide)⟩

/-- Claim C8: a NaN-boxed single-precision write leaves the raw cell equal
to 0xFFFFFFFF00000000 or-ed with the 32-bit payload, and reading the value
back as single precision recovers the payload verbatim. -/
theorem C8_nan_boxing_round_trip
    (r : FPRegisters) (i : Fin 32) (v : Nat) (hv : v < 2 ^ 32) :
    (r.set_float i v).get_raw i = 0xFFFFFFFF00000000 ||| v ∧
    (r.set_float i v).get_float i = v := by
  have hraw : (r.set_float i v).get_raw i = v ||| NAN_BOX_MASK := by
    simp [FPRegisters.set_float, FPRegisters.set_raw, FPRegisters.get_raw]
  constructor
  · rw [hraw, Nat.lor_comm]
    rfl
  · have hmask : NAN_BOX_MASK = 2 ^ 32 * 0xFFFFFFFF := by decide
    have hor : v ||| NAN_BOX_MASK = 2 ^ 32 * 0xFFFFFFFF + v := by
      rw [Nat.lor_comm, hmask, ← Nat.mul_add_lt_is_or hv]
    rw [FPRegisters.get_float, hraw, hor]
    omega

/-- Reading back the register just set returns the written value when the
index is nonzero. -/
theorem GPRegisters.get_set_same (r : GPRegisters) (i : Fin 32) (v : Nat)
    (hi : i.val ≠ 0) : (r.set i v).get i = v := by
  simp [GPRegisters.get, GPRegisters.set, hi]

/-- Setting one register leaves every other register unchanged. -/
theorem GPRegisters.get_set_ne (r : GPRegisters) (i j : Fin 32) (v : Nat)
    (hne : j ≠ i) : (r.set i v).get j = r.get j := by
  unfold GPRegisters.set GPRegisters.get
  by_cases hi : i.val = 0
  · simp [hi]
  · simp only [hi, if_false]
    by_cases hj : j.val = 0
    · simp [hj]
    · simp [hj, hne]

/-! ### Claim C1 -/

/-- Claim C1 (code bug): a step taken while the trap-pending flag is set
does perform trap entry (clears the flag, sets PC to mtvec, leaves mcause
and mtval as recorded), but then the panic left at the end of exec_trap
fires, so step never returns Stepped - the host process dies instead. -/
theorem C1_trap_pending_step_panics (rest : WhiskerCpu → ExecOutcome) (cpu : WhiskerCpu)
    (h : cpu.shouldTrap = true) :
    WhiskerCpu.execute_one rest cpu =
      .crash { cpu with
               cycles := cpu.cycles + 1,
               pc := cpu.csrs.read_mtvec,
               shouldTrap := false } := by
  simp [WhiskerCpu.execute_one, WhiskerCpu.exec_trap, h]

/-- Witness for C1 at a concrete input: a freshly built CPU that has a
pending trap. -/
theorem C1_trap_pending_step_panics_witness :
    ({ cpuEmpty with shouldTrap := true } : WhiskerCpu).shouldTrap = true ∧
    WhiskerCpu.execute_one (fun c => ExecOutcome.err .Paused c)
        { cpuEmpty with shouldTrap := true } =
      .crash { { cpuEmpty with shouldTrap := true } with
               cycles := ({ cpuEmpty with shouldTrap := true } : WhiskerCpu).cycles + 1,
               pc := ({ cpuEmpty with shouldTrap := true } : WhiskerCpu).csrs.read_mtvec,
               shouldTrap := false } :=
  ⟨rfl, C1_trap_pending_step_panics (fun c => ExecOutcome.err .Paused c)
    { cpuEmpty with shouldTrap := true } rfl⟩

/-! ### Claim C6 -/

/-- Claim C6 (code bug): with fcsr = 0x20 (rounding-mode field RTZ = 1,
all sticky flags clear) the dynamic arm of write_thread_local stores 0
(RNE) into the soft-float state, because the Rust expression
fcsr AND MASK SHR 5 parses as fcsr AND (MASK SHR 5) = fcsr AND 0b111,
while the rounding-mode field of fcsr is (fcsr SHR 5) AND 0b111 = 1. -/
theorem C6_dynamic_rounding_reads_wrong_bits :
    RoundingMode.write_thread_local_value .Dynamic 0x20 = 0 ∧
    0x20 >>> 5 &&& 0b111 = 1 := by
  decide

/-! ### Claim C9 -/

/-- The four extract_bits_16 instances used by the fetch dispatch, in
arithmetic form. -/
theorem extract_bits_16_fetch_arith (v : Nat) :
    extract_bits_16 v 0 1 = v % 4 ∧ extract_bits_16 v 2 4 = v % 32 / 4 ∧
    extract_bits_16 v 0 5 = v % 64 ∧ extract_bits_16 v 0 6 = v % 128 := by
  have hmod16 : ∀ x : Nat, x &&& 65535 = x % 65536 := fun x => by
    have := Nat.and_pow_two_sub_one_eq_mod x 16
    norm_num at this
    exact this
  refine ⟨?_, ?_, ?_, ?_⟩
  · have h0 : extract_bits_16 v 0 1 = v &&& 65535 &&& 3 := rfl
    rw [h0, Nat.and_assoc]
    have hc : (65535 : Nat) &&& 3 = 3 := by decide
    rw [hc]
    have := Nat.and_pow_two_sub_one_eq_mod v 2
    norm_num at this
    exact this
  · have h0 : extract_bits_16 v 2 4 = (v &&& 65532 &&& 31) >>> 2 := rfl
    rw [h0, Nat.and_assoc]
    have hc : (65532 : Nat) &&& 31 = 28 := by decide
    rw [hc]
    have h28 : v &&& 28 = v % 32 / 4 * 4 := by
      have := land_two_pow_sub v 5 2 (by omega)
      norm_num at this
      exact this
    rw [h28, Nat.shiftRight_eq_div_pow]
    norm_num
  · have h0 : extract_bits_16 v 0 5 = v &&& 65535 &&& 63 := rfl
    rw [h0, Nat.and_assoc]
    have hc : (65535 : Nat) &&& 63 = 63 := by decide
    rw [hc]
    have := Nat.and_pow_two_sub_one_eq_mod v 6
    norm_num at this
    exact this
  · have h0 : extract_bits_16 v 0 6 = v &&& 65535 &&& 127 := rfl
    rw [h0, Nat.and_assoc]
    have hc : (65535 : Nat) &&& 127 = 127 := by decide
    rw [hc]
    have := Nat.and_pow_two_sub_one_eq_mod v 7
    norm_num at this
    exact this

/-- Claim C9, counterexample: with the compressed extension enabled, a
parcel with low bits 011111 (48-bit prefix) makes the decoder hit its
unimplemented-48-bit arm and panic the host, rather than requesting the
illegal-instruction trap the claim promises for every extension setting. -/
theorem C9_counterexample_48bit_prefix_panics :
    fetch_instruction true romMem 0
        (fun _ => FetchParse.failed 0 0) (fun _ => FetchParse.failed 0 0) =
      (FetchResult.crash : FetchResult Unit) ∧
    fetch_instruction true romMem 0
        (fun _ => FetchParse.failed 0 0) (fun _ => FetchParse.failed 0 0) ≠
      (FetchResult.failed TrapIdx.ILLEGAL_INSTRUCTION 0 : FetchResult Unit) :=
  ⟨rfl, fun hc => nomatch hc⟩

/-- Claim C9 as amended: on a 48-bit or 64-bit prefix parcel the decoder
requests illegal-instruction with mtval = pc and returns decode-failed
whenever the compressed extension is disabled; with compressed enabled it
instead hits the unimplemented todo arm and panics the host. -/
theorem C9_amended_wide_prefix_dispatch {α : Type} (sc : Bool) (m : Memory) (pc : Nat)
    (p16 p32 : Nat → FetchParse α) (parcel : Nat)
    (hread : m.read_u16 pc = .ok parcel)
    (hbits : parcel % 64 = 0b011111 ∨ parcel % 128 = 0b0111111) :
    fetch_instruction sc m pc p16 p32 =
      if sc then .crash else .failed TrapIdx.ILLEGAL_INSTRUCTION pc := by
  obtain ⟨e01, e24, e05, e06⟩ := extract_bits_16_fetch_arith parcel
  unfold fetch_instruction
  rw [hread]
  rcases hbits with h | h
  · have h4 : parcel % 4 = 3 := by omega
    have h32 : parcel % 32 / 4 = 7 := by omega
    simp [e01, e24, e05, h4, h32, h]
  · have h4 : parcel % 4 = 3 := by omega
    have h32 : parcel % 32 / 4 = 7 := by omega
    have h64 : parcel % 64 = 63 := by omega
    simp [e01, e24, e05, e06, h4, h32, h64, h]

/-- Witness for the amended C9 at a concrete input: the bootrom fixture
holds the parcel 0x001F at pc 0 and the compressed extension is off, so
the fetch requests illegal-instruction with mtval 0. -/
theorem C9_amended_wide_prefix_dispatch_witness :
    romMem.read_u16 0 = .ok 0x1F ∧
    fetch_instruction false romMem 0
        (fun _ => FetchParse.failed 0 0) (fun _ => FetchParse.failed 0 0) =
      (if false then .crash else .failed TrapIdx.ILLEGAL_INSTRUCTION 0 : FetchResult Unit) :=
  ⟨rfl, C9_amended_wide_prefix_dispatch false romMem 0
    (fun _ => FetchParse.failed 0 0) (fun _ => FetchParse.failed 0 0) 0x1F rfl
    (Or.inl (by decide))⟩

/-! ### Claim C4 -/

/-- Claim C4: for the CSR read-and-clear forms, a zero mask operand (r0,
or immediate 0) performs only the read - the destination receives the CSR
value with no writability check and no trap, even on a read-only CSR;
with a nonzero mask operand and a present writable CSR, the destination
receives the old value and the CSR becomes old AND mask (the mask itself,
not its complement).  The source updates the destination register before
reading the mask register, so the general form reads the mask operand
from the updated file; when the mask register differs from the
destination this is the original mask-register value. -/
theorem C4_csr_read_and_clear
    (cpu : WhiskerCpu) (dst mask : Fin 32) (imm csr : Nat) (info : CSRInfo)
    (hinfo : cpu.csrs.get csr = some info) :
    (WhiskerCpu.exec_csr cpu (.CSRReadAndClear dst GPRegisterIndex.ZERO csr) =
      { cpu with registers := cpu.registers.set dst info.val }) ∧
    (WhiskerCpu.exec_csr cpu (.CSRReadAndClearImm dst 0 csr) =
      { cpu with registers := cpu.registers.set dst info.val }) ∧
    (mask ≠ GPRegisterIndex.ZERO → info.is_rw = true →
      WhiskerCpu.exec_csr cpu (.CSRReadAndClear dst mask csr) =
        { cpu with
          registers := cpu.registers.set dst info.val,
          csrs := cpu.csrs.writeAddr csr
            (info.val &&& (cpu.registers.set dst info.val).get mask) }) ∧
    (mask ≠ GPRegisterIndex.ZERO → mask ≠ dst → info.is_rw = true →
      WhiskerCpu.exec_csr cpu (.CSRReadAndClear dst mask csr) =
        { cpu with
          registers := cpu.registers.set dst info.val,
          csrs := cpu.csrs.writeAddr csr (info.val &&& cpu.registers.get mask) }) ∧
    (imm ≠ 0 → info.is_rw = true →
      WhiskerCpu.exec_csr cpu (.CSRReadAndClearImm dst imm csr) =
        { cpu with
          registers := cpu.registers.set dst info.val,
          csrs := cpu.csrs.writeAddr csr (info.val &&& imm) }) := by
  refine ⟨?_, ?_, ?_, ?_, ?_⟩
  · simp [WhiskerCpu.exec_csr, hinfo]
  · simp [WhiskerCpu.exec_csr, hinfo]
  · intro hmask hrw
    have hrw' : info.rw = true := hrw
    simp [WhiskerCpu.exec_csr, hinfo, hmask, CSRInfo.is_rw, hrw']
  · intro hmask hne hrw
    have hrw' : info.rw = true := hrw
    have hget := GPRegisters.get_set_ne cpu.registers dst mask info.val hne
    simp [WhiskerCpu.exec_csr, hinfo, hmask, CSRInfo.is_rw, hrw', hget]
  · intro himm hrw
    have hrw' : info.rw = true := hrw
    simp [WhiskerCpu.exec_csr, hinfo, himm, CSRInfo.is_rw, hrw']

/-- Witness for C4 at a concrete input: the mtval CSR (0x343, writable,
value 0) of a fresh bank; register mask operand x1, immediate mask 5. -/
theorem C4_csr_read_and_clear_witness :
    cpuEmpty.csrs.get 0x343 = some ⟨0, 0x343, true, .Machine⟩ ∧
    ((WhiskerCpu.exec_csr cpuEmpty (.CSRReadAndClear 2 GPRegisterIndex.ZERO 0x343) =
      { cpuEmpty with registers := cpuEmpty.registers.set 2 (0 : Nat) }) ∧
    (WhiskerCpu.exec_csr cpuEmpty (.CSRReadAndClearImm 2 0 0x343) =
      { cpuEmpty with registers := cpuEmpty.registers.set 2 (0 : Nat) }) ∧
    ((1 : Fin 32) ≠ GPRegisterIndex.ZERO → (true : Bool) = true →
      WhiskerCpu.exec_csr cpuEmpty (.CSRReadAndClear 2 1 0x343) =
        { cpuEmpty with
          registers := cpuEmpty.registers.set 2 (0 : Nat),
          csrs := cpuEmpty.csrs.writeAddr 0x343
            ((0 : Nat) &&& (cpuEmpty.registers.set 2 (0 : Nat)).get 1) }) ∧
    ((1 : Fin 32) ≠ GPRegisterIndex.ZERO → (1 : Fin 32) ≠ 2 → (true : Bool) = true →
      WhiskerCpu.exec_csr cpuEmpty (.CSRReadAndClear 2 1 0x343) =
        { cpuEmpty with
          registers := cpuEmpty.registers.set 2 (0 : Nat),
          csrs := cpuEmpty.csrs.writeAddr 0x343 ((0 : Nat) &&& cpuEmpty.registers.get 1) }) ∧
    ((5 : Nat) ≠ 0 → (true : Bool) = true →
      WhiskerCpu.exec_csr cpuEmpty (.CSRReadAndClearImm 2 5 0x343) =
        { cpuEmpty with
          registers := cpuEmpty.registers.set 2 (0 : Nat),
          csrs := cpuEmpty.csrs.writeAddr 0x343 ((0 : Nat) &&& 5) })) :=
  ⟨rfl, C4_csr_read_and_clear cpuEmpty 2 1 5 0x343 ⟨0, 0x343, true, .Machine⟩ rfl⟩

/-! ### Claim C5 -/

/-- Claim C5: the signed sub-word loads merge the zero-extended loaded
value into the destination register - the new destination value has its
low 8/16/32 bits equal to the loaded value and all higher bits preserved
from the old destination value (no sign extension). -/
theorem C5_subword_loads_merge
    (cpu : WhiskerCpu) (dst src : Fin 32) (off : Int)
    (b h w : Nat)
    (hreg : cpu.registers.get dst < 2 ^ 64)
    (hb8 : b < 2 ^ 8) (hh16 : h < 2 ^ 16) (hw32 : w < 2 ^ 32)
    (hb : cpu.mem.read_u8 (wrapAddSigned (cpu.registers.get src) off) = .ok b)
    (hh : cpu.mem.read_u16 (wrapAddSigned (cpu.registers.get src) off) = .ok h)
    (hw : cpu.mem.read_u32 (wrapAddSigned (cpu.registers.get src) off) = .ok w) :
    (cpu.execute_i_insn (.LoadByte dst src off) =
        some { cpu with registers :=
          cpu.registers.set dst ((cpu.registers.get dst &&& 0xFFFFFFFFFFFFFF00) ||| b) } ∧
      ((cpu.registers.get dst &&& 0xFFFFFFFFFFFFFF00) ||| b) % 2 ^ 8 = b ∧
      ((cpu.registers.get dst &&& 0xFFFFFFFFFFFFFF00) ||| b) / 2 ^ 8 =
        cpu.registers.get dst / 2 ^ 8) ∧
    (cpu.execute_i_insn (.LoadHalf dst src off) =
        some { cpu with registers :=
          cpu.registers.set dst ((cpu.registers.get dst &&& 0xFFFFFFFFFFFF0000) ||| h) } ∧
      ((cpu.registers.get dst &&& 0xFFFFFFFFFFFF0000) ||| h) % 2 ^ 16 = h ∧
      ((cpu.registers.get dst &&& 0xFFFFFFFFFFFF0000) ||| h) / 2 ^ 16 =
        cpu.registers.get dst / 2 ^ 16) ∧
    (cpu.execute_i_insn (.LoadWord dst src off) =
        some { cpu with registers :=
          cpu.registers.set dst ((cpu.registers.get dst &&& 0xFFFFFFFF00000000) ||| w) } ∧
      ((cpu.registers.get dst &&& 0xFFFFFFFF00000000) ||| w) % 2 ^ 32 = w ∧
      ((cpu.registers.get dst &&& 0xFFFFFFFF00000000) ||| w) / 2 ^ 32 =
        cpu.registers.get dst / 2 ^ 32) := by
  have hmask8 : (0xFFFFFFFFFFFFFF00 : Nat) = 2 ^ 64 - 2 ^ 8 := by decide
  have hmask16 : (0xFFFFFFFFFFFF0000 : Nat) = 2 ^ 64 - 2 ^ 16 := by decide
  have hmask32 : (0xFFFFFFFF00000000 : Nat) = 2 ^ 64 - 2 ^ 32 := by decide
  have hm8 := land_lor_merge (cpu.registers.get dst) b 64 8 (by omega) hreg hb8
  have hm16 := land_lor_merge (cpu.registers.get dst) h 64 16 (by omega) hreg hh16
  have hm32 := land_lor_merge (cpu.registers.get dst) w 64 32 (by omega) hreg hw32
  refine ⟨⟨?_, ?_, ?_⟩, ⟨?_, ?_, ?_⟩, ⟨?_, ?_, ?_⟩⟩
  · simp [WhiskerCpu.execute_i_insn, hb]
  · rw [hmask8, hm8]
    omega
  · rw [hmask8, hm8]
    have : b < 2 ^ 8 := hb8
    omega
  · simp [WhiskerCpu.execute_i_insn, hh]
  · rw [hmask16, hm16]
    omega
  · rw [hmask16, hm16]
    have : h < 2 ^ 16 := hh16
    omega
  · simp [WhiskerCpu.execute_i_insn, hw]
  · rw [hmask32, hm32]
    omega
  · rw [hmask32, hm32]
    have : w < 2 ^ 32 := hw32
    omega

/-- Witness for C5: load from the mapped page at 0x1000 (all bytes zero)
into x2, address taken from x1. -/
theorem C5_subword_loads_merge_witness :
    cpuPhys.mem.read_u8 (wrapAddSigned (cpuPhys.registers.get 1) 0) = .ok 0 ∧
    (cpuPhys.execute_i_insn (.LoadByte 2 1 0) =
        some { cpuPhys with registers :=
          cpuPhys.registers.set 2 ((cpuPhys.registers.get 2 &&& 0xFFFFFFFFFFFFFF00) ||| 0) } ∧
      ((cpuPhys.registers.get 2 &&& 0xFFFFFFFFFFFFFF00) ||| 0) % 2 ^ 8 = 0 ∧
      ((cpuPhys.registers.get 2 &&& 0xFFFFFFFFFFFFFF00) ||| 0) / 2 ^ 8 =
        cpuPhys.registers.get 2 / 2 ^ 8) ∧
    (cpuPhys.execute_i_insn (.LoadHalf 2 1 0) =
        some { cpuPhys with registers :=
          cpuPhys.registers.set 2 ((cpuPhys.registers.get 2 &&& 0xFFFFFFFFFFFF0000) ||| 0) } ∧
      ((cpuPhys.registers.get 2 &&& 0xFFFFFFFFFFFF0000) ||| 0) % 2 ^ 16 = 0 ∧
      ((cpuPhys.registers.get 2 &&& 0xFFFFFFFFFFFF0000) ||| 0) / 2 ^ 16 =
        cpuPhys.registers.get 2 / 2 ^ 16) ∧
    (cpuPhys.execute_i_insn (.LoadWord 2 1 0) =
        some { cpuPhys with registers :=
          cpuPhys.registers.set 2 ((cpuPhys.registers.get 2 &&& 0xFFFFFFFF00000000) ||| 0) } ∧
      ((cpuPhys.registers.get 2 &&& 0xFFFFFFFF00000000) ||| 0) % 2 ^ 32 = 0 ∧
      ((cpuPhys.registers.get 2 &&& 0xFFFFFFFF00000000) ||| 0) / 2 ^ 32 =
        cpuPhys.registers.get 2 / 2 ^ 32) :=
  ⟨rfl, C5_subword_loads_merge cpuPhys 2 1 0 0 0 0 (by decide)
    (by decide) (by decide) (by decide) rfl rfl rfl⟩

/-- Witness for C8 at a concrete input. -/
theorem C8_nan_boxing_round_trip_witness :
    (0x41200000 : Nat) < 2 ^ 32 ∧
    ((FPRegisters.mk fun _ => 0).set_float 3 0x41200000).get_raw 3 =
      0xFFFFFFFF00000000 ||| 0x41200000 ∧
    ((FPRegisters.mk fun _ => 0).set_float 3 0x41200000).get_float 3 = 0x41200000 :=
  ⟨by decide,
   C8_nan_boxing_round_trip (FPRegisters.mk fun _ => 0) 3 0x41200000 (by decide)⟩

/-! ### Memory evaluation lemmas -/

/-- Reading one byte of a physically-backed page. -/
theorem readByte_phys_gen (m : Memory) (a pa pb : Nat)
    (hmap : m.mappings (PageBase.fromAddr a) = some (.physBacked pb))
    (hpa : pa = pb + (a - PageBase.fromAddr a))
    (hsz : pa < m.physSize) :
    m.readByte a = .ok (m.phys pa) := by
  simp only [Memory.readByte, hmap]
  rw [← hpa]
  simp [hsz]

/-- Writing one byte of a physically-backed page: the reservation on the
byte's line is evicted and the byte stored. -/
theorem writeByte_phys_gen (m : Memory) (a pa pb v : Nat)
    (hmap : m.mappings (PageBase.fromAddr a) = some (.physBacked pb))
    (hpa : pa = pb + (a - PageBase.fromAddr a))
    (hsz : pa < m.physSize) :
    m.writeByte a v = .ok () (physWrite m pa v) := by
  simp only [Memory.writeByte, hmap]
  rw [← hpa]
  simp [hsz, physWrite]

/-- Unfolding step of read_slice. -/
theorem read_slice_cons (m : Memory) (off n b : Nat) (rest : List Nat)
    (hb : m.readByte off = .ok b)
    (hrest : m.read_slice (off + 1) n = .ok rest) :
    m.read_slice off (n + 1) = .ok (b :: rest) := by
  simp only [Memory.read_slice, hb, hrest]

/-- Unfolding step of write_slice. -/
theorem write_slice_cons (m : Memory) (off v : Nat) (vs : List Nat) (m₁ : Memory)
    (hv : m.writeByte off v = .ok () m₁) :
    m.write_slice off (v :: vs) = m₁.write_slice (off + 1) vs := by
  simp only [Memory.write_slice, hv]

/-- Translation of an address on a physically-backed page. -/
theorem translate_phys (m : Memory) (a pa pb : Nat)
    (hmap : m.mappings (PageBase.fromAddr a) = some (.physBacked pb))
    (hpa : pa = pb + (a - PageBase.fromAddr a)) :
    m.translate_address a = .ok pa := by
  simp [Memory.translate_address, hmap, hpa]

/-- Translation of an unmapped address fails with that address. -/
theorem translate_fault_unmapped (m : Memory) (a : Nat)
    (h : m.mappings (PageBase.fromAddr a) = none) :
    m.translate_address a = .fault a := by
  simp [Memory.translate_address, h]

/-- A read at an unmapped address fails with that address at its first
byte. -/
theorem readByte_fault_unmapped (m : Memory) (a : Nat)
    (h : m.mappings (PageBase.fromAddr a) = none) :
    m.readByte a = .fault a := by
  simp [Memory.readByte, h]

/-- read_u32 at an unmapped address fails with that address. -/
theorem read_u32_fault_unmapped (m : Memory) (a : Nat)
    (h : m.mappings (PageBase.fromAddr a) = none) :
    m.read_u32 a = .fault a := by
  have hb := readByte_fault_unmapped m a h
  have h4 : m.read_slice a (3 + 1) = .fault a := by
    simp only [Memory.read_slice, hb]
  show (m.read_slice a 4).map fromLeBytes = _
  rw [show (4 : Nat) = 3 + 1 from rfl, h4]
  rfl

/-- read_u64 at an unmapped address fails with that address. -/
theorem read_u64_fault_unmapped (m : Memory) (a : Nat)
    (h : m.mappings (PageBase.fromAddr a) = none) :
    m.read_u64 a = .fault a := by
  have hb := readByte_fault_unmapped m a h
  have h8 : m.read_slice a (7 + 1) = .fault a := by
    simp only [Memory.read_slice, hb]
  show (m.read_slice a 8).map fromLeBytes = _
  rw [show (8 : Nat) = 7 + 1 from rfl, h8]
  rfl

/-- A successful byte write does not change the mapping table or the
buffer sizes, and never introduces a reservation. -/
theorem writeByte_preserves (m : Memory) (a v : Nat) (m₁ : Memory)
    (h : m.writeByte a v = .ok () m₁) :
    m₁.mappings = m.mappings ∧ m₁.physSize = m.physSize ∧
    (∀ l, m.reservations l = none → m₁.reservations l = none) := by
  simp only [Memory.writeByte] at h
  cases hm : m.mappings (PageBase.fromAddr a) with
  | none => rw [hm] at h; exact absurd h (by simp)
  | some entry =>
    rw [hm] at h
    cases entry with
    | physBacked pb =>
      simp only at h
      split at h
      · cases h
        refine ⟨rfl, rfl, ?_⟩
        intro l hl
        simp only [MemoryReservations.unreserve]
        split
        · rfl
        · exact hl
      · exact absurd h (by simp)
    | bootrom rb =>
      simp only at h
      split at h
      · cases h
        exact ⟨rfl, rfl, fun l hl => hl⟩
      · exact absurd h (by simp)
    | mmio onRead =>
      simp only at h
      cases h
      exact ⟨rfl, rfl, fun l hl => hl⟩

/-- A successful slice write preserves the mapping table, the physical
size, and the absence of any given reservation. -/
theorem write_slice_preserves (vs : List Nat) (m : Memory) (off : Nat) (m' : Memory)
    (h : m.write_slice off vs = .ok () m') :
    m'.mappings = m.mappings ∧ m'.physSize = m.physSize ∧
    (∀ l, m.reservations l = none → m'.reservations l = none) := by
  induction vs generalizing m off with
  | nil =>
    simp only [Memory.write_slice] at h
    cases h
    exact ⟨rfl, rfl, fun l hl => hl⟩
  | cons v rest ih =>
    simp only [Memory.write_slice] at h
    cases hwb : m.writeByte off v with
    | ok u m₁ =>
      rw [hwb] at h
      obtain ⟨hmap₁, hsz₁, hres₁⟩ := writeByte_preserves m off v m₁ hwb
      obtain ⟨hmap₂, hsz₂, hres₂⟩ := ih m₁ (off + 1) h
      exact ⟨hmap₂.trans hmap₁, hsz₂.trans hsz₁, fun l hl => hres₂ l (hres₁ l hl)⟩
    | fault a m₁ => rw [hwb] at h; exact absurd h (by simp)
    | crash => rw [hwb] at h; exact absurd h (by simp)

/-- A store-conditional at an address whose line holds no reservation
returns false and leaves the memory untouched. -/
theorem sc_word_fails (m : Memory) (a hart v pa : Nat)
    (htr : m.translate_address a = .ok pa)
    (hres : m.reservations (cacheLineAligned pa) = none) :
    m.store_conditional_word a hart v = .ok false m := by
  simp [Memory.store_conditional_word, htr, MemoryReservations.is_reserved, hres]

/-- A byte write to a physically-backed page evicts the reservation on
the byte's line (whatever hart held it). -/
theorem writeByte_evicts (m : Memory) (a v : Nat) (m₁ : Memory) (pb : Nat)
    (hmap : m.mappings (PageBase.fromAddr a) = some (.physBacked pb))
    (h : m.writeByte a v = .ok () m₁) :
    m₁.reservations (cacheLineAligned (pb + (a - PageBase.fromAddr a))) = none := by
  simp only [Memory.writeByte, hmap] at h
  split at h
  · cases h
    simp [MemoryReservations.unreserve]
  · exact absurd h (by simp)

/-- Any byte of a slice write that lands on a physically-backed page has
no reservation on its line once the whole write has completed. -/
theorem write_slice_evicts (vs : List Nat) (m : Memory) (a : Nat) (m' : Memory) (k pb : Nat)
    (hws : m.write_slice a vs = .ok () m')
    (hk : k < vs.length)
    (hmap : m.mappings (PageBase.fromAddr (a + k)) = some (.physBacked pb)) :
    m'.reservations (cacheLineAligned (pb + ((a + k) - PageBase.fromAddr (a + k)))) = none := by
  induction vs generalizing m a k with
  | nil => exact absurd hk (by simp)
  | cons v rest ih =>
    simp only [Memory.write_slice] at hws
    cases hwb : m.writeByte a v with
    | ok u m₁ =>
      rw [hwb] at hws
      cases k with
      | zero =>
        have hmap0 : m.mappings (PageBase.fromAddr a) = some (.physBacked pb) := by
          have : a + 0 = a := by omega
          rwa [this] at hmap
        have hev := writeByte_evicts m a v m₁ pb hmap0 hwb
        obtain ⟨_, _, hpres⟩ := write_slice_preserves rest m₁ (a + 1) m' hws
        have : a + 0 = a := by omega
        rw [this]
        exact hpres _ hev
      | succ k =>
        obtain ⟨hmap₁, _, _⟩ := writeByte_preserves m a v m₁ hwb
        have hshift : a + (k + 1) = (a + 1) + k := by omega
        have hmap' : m₁.mappings (PageBase.fromAddr ((a + 1) + k)) = some (.physBacked pb) := by
          rw [hmap₁, ← hshift]
          exact hmap
        have := ih m₁ (a + 1) k hws (by simpa using hk) hmap'
        rwa [← hshift] at this
    | fault x m₁ => rw [hwb] at hws; exact absurd hws (by simp)
    | crash => rw [hwb] at hws; exact absurd hws (by simp)

/-- Writing four bytes inside one physically-backed page: all four bytes
land in the flat buffer and each write evicts its line. -/
theorem write4_phys_page (m : Memory) (A pa pb b0 b1 b2 b3 : Nat)
    (hA : A < 2 ^ 64) (hoff : A % 4096 ≤ 4092)
    (hmap : m.mappings (PageBase.fromAddr A) = some (.physBacked pb))
    (hpa : pa = pb + A % 4096)
    (hsz : pa + 3 < m.physSize) :
    m.write_slice A [b0, b1, b2, b3] =
      .ok () (physWrite (physWrite (physWrite (physWrite m pa b0)
        (pa + 1) b1) (pa + 2) b2) (pa + 3) b3) := by
  have hfa0 : PageBase.fromAddr A = A - A % 4096 := pageBase_fromAddr_eq A hA
  have hmapB : m.mappings (A - A % 4096) = some (.physBacked pb) := by rwa [hfa0] at hmap
  have hfa1 : PageBase.fromAddr (A + 1) = A - A % 4096 := by
    rw [pageBase_fromAddr_eq (A + 1) (by omega)]
    omega
  have hfa2 : PageBase.fromAddr (A + 2) = A - A % 4096 := by
    rw [pageBase_fromAddr_eq (A + 2) (by omega)]
    omega
  have hfa3 : PageBase.fromAddr (A + 3) = A - A % 4096 := by
    rw [pageBase_fromAddr_eq (A + 3) (by omega)]
    omega
  have hmap1 : m.mappings (PageBase.fromAddr (A + 1)) = some (.physBacked pb) := by
    rw [hfa1]; exact hmapB
  have hmap2 : m.mappings (PageBase.fromAddr (A + 2)) = some (.physBacked pb) := by
    rw [hfa2]; exact hmapB
  have hmap3 : m.mappings (PageBase.fromAddr (A + 3)) = some (.physBacked pb) := by
    rw [hfa3]; exact hmapB
  have h0 : m.writeByte A b0 = .ok () (physWrite m pa b0) :=
    writeByte_phys_gen m A pa pb b0 hmap (by rw [hfa0]; omega) (by omega)
  have h1 : (physWrite m pa b0).writeByte (A + 1) b1 =
      .ok () (physWrite (physWrite m pa b0) (pa + 1) b1) :=
    writeByte_phys_gen (physWrite m pa b0) (A + 1) (pa + 1) pb b1 hmap1
      (by rw [hfa1]; omega) (by show pa + 1 < m.physSize; omega)
  have h2 : (physWrite (physWrite m pa b0) (pa + 1) b1).writeByte (A + 2) b2 =
      .ok () (physWrite (physWrite (physWrite m pa b0) (pa + 1) b1) (pa + 2) b2) :=
    writeByte_phys_gen (physWrite (physWrite m pa b0) (pa + 1) b1) (A + 2) (pa + 2) pb b2
      hmap2 (by rw [hfa2]; omega) (by show pa + 2 < m.physSize; omega)
  have h3 : (physWrite (physWrite (physWrite m pa b0) (pa + 1) b1) (pa + 2) b2).writeByte
        (A + 3) b3 =
      .ok () (physWrite (physWrite (physWrite (physWrite m pa b0) (pa + 1) b1) (pa + 2) b2)
        (pa + 3) b3) :=
    writeByte_phys_gen (physWrite (physWrite (physWrite m pa b0) (pa + 1) b1) (pa + 2) b2)
      (A + 3) (pa + 3) pb b3 hmap3 (by rw [hfa3]; omega) (by show pa + 3 < m.physSize; omega)
  calc m.write_slice A [b0, b1, b2, b3]
      = (physWrite m pa b0).write_slice (A + 1) [b1, b2, b3] :=
        write_slice_cons m A b0 [b1, b2, b3] _ h0
    _ = (physWrite (physWrite m pa b0) (pa + 1) b1).write_slice (A + 2) [b2, b3] :=
        write_slice_cons _ (A + 1) b1 [b2, b3] _ h1
    _ = (physWrite (physWrite (physWrite m pa b0) (pa + 1) b1) (pa + 2) b2).write_slice
          (A + 3) [b3] :=
        write_slice_cons _ (A + 2) b2 [b3] _ h2
    _ = (physWrite (physWrite (physWrite (physWrite m pa b0) (pa + 1) b1) (pa + 2) b2)
          (pa + 3) b3).write_slice (A + 4) [] :=
        write_slice_cons _ (A + 3) b3 [] _ h3
    _ = .ok () (physWrite (physWrite (physWrite (physWrite m pa b0) (pa + 1) b1)
          (pa + 2) b2) (pa + 3) b3) := rfl

/-- Reading a 32-bit word that lies inside one physically-backed page. -/
theorem read_u32_phys_page (m : Memory) (A pa pb : Nat)
    (hA : A < 2 ^ 64) (hoff : A % 4096 ≤ 4092)
    (hmap : m.mappings (PageBase.fromAddr A) = some (.physBacked pb))
    (hpa : pa = pb + A % 4096)
    (hsz : pa + 3 < m.physSize) :
    m.read_u32 A =
      .ok (m.phys pa + 256 * (m.phys (pa + 1) + 256 * (m.phys (pa + 2) +
        256 * (m.phys (pa + 3) + 256 * 0)))) := by
  have hfa0 : PageBase.fromAddr A = A - A % 4096 := pageBase_fromAddr_eq A hA
  have hmapB : m.mappings (A - A % 4096) = some (.physBacked pb) := by rwa [hfa0] at hmap
  have hfa1 : PageBase.fromAddr (A + 1) = A - A % 4096 := by
    rw [pageBase_fromAddr_eq (A + 1) (by omega)]
    omega
  have hfa2 : PageBase.fromAddr (A + 2) = A - A % 4096 := by
    rw [pageBase_fromAddr_eq (A + 2) (by omega)]
    omega
  have hfa3 : PageBase.fromAddr (A + 3) = A - A % 4096 := by
    rw [pageBase_fromAddr_eq (A + 3) (by omega)]
    omega
  have r0 : m.readByte A = .ok (m.phys pa) :=
    readByte_phys_gen m A pa pb hmap (by rw [hfa0]; omega) (by omega)
  have r1 : m.readByte (A + 1) = .ok (m.phys (pa + 1)) :=
    readByte_phys_gen m (A + 1) (pa + 1) pb (by rw [hfa1]; exact hmapB)
      (by rw [hfa1]; omega) (by omega)
  have r2 : m.readByte (A + 2) = .ok (m.phys (pa + 2)) :=
    readByte_phys_gen m (A + 2) (pa + 2) pb (by rw [hfa2]; exact hmapB)
      (by rw [hfa2]; omega) (by omega)
  have r3 : m.readByte (A + 3) = .ok (m.phys (pa + 3)) :=
    readByte_phys_gen m (A + 3) (pa + 3) pb (by rw [hfa3]; exact hmapB)
      (by rw [hfa3]; omega) (by omega)
  have s0 : m.read_slice (A + 4) 0 = .ok [] := rfl
  have s1 : m.read_slice (A + 3) 1 = .ok [m.phys (pa + 3)] :=
    read_slice_cons m (A + 3) 0 _ [] r3 s0
  have s2 : m.read_slice (A + 2) 2 = .ok [m.phys (pa + 2), m.phys (pa + 3)] :=
    read_slice_cons m (A + 2) 1 _ _ r2 s1
  have s3 : m.read_slice (A + 1) 3 =
      .ok [m.phys (pa + 1), m.phys (pa + 2), m.phys (pa + 3)] :=
    read_slice_cons m (A + 1) 2 _ _ r1 s2
  have s4 : m.read_slice A 4 =
      .ok [m.phys pa, m.phys (pa + 1), m.phys (pa + 2), m.phys (pa + 3)] :=
    read_slice_cons m A 3 _ _ r0 s3
  show (m.read_slice A 4).map fromLeBytes = _
  rw [s4]
  rfl

/-! ### Claim C3 -/

/-- Claim C3: every byte written through write_slice (hence through every
typed write helper) to a physically-backed page evicts the reservation on
the 64-byte line of its physical address, no matter which hart held it;
a store-conditional issued afterwards at any address translating into
that line fails: it returns false, leaves memory unchanged, and the
executing instruction writes the nonzero value 1 to its destination
register. -/
theorem C3_plain_store_evicts_reservation
    (m : Memory) (a : Nat) (vs : List Nat) (m' : Memory) (k pb pa : Nat)
    (hws : m.write_slice a vs = .ok () m')
    (hk : k < vs.length)
    (hmap : m.mappings (PageBase.fromAddr (a + k)) = some (.physBacked pb))
    (hpa : pa = pb + ((a + k) - PageBase.fromAddr (a + k))) :
    m'.reservations (cacheLineAligned pa) = none ∧
    (∀ a₂ hart v₂ pa₂, m'.translate_address a₂ = .ok pa₂ →
      cacheLineAligned pa₂ = cacheLineAligned pa →
      m'.store_conditional_word a₂ hart v₂ = .ok false m') ∧
    (∀ (cpu : WhiskerCpu) (src1 src2 dst : Fin 32) (aq rl : Bool) (a₂ pa₂ : Nat),
      cpu.mem = m' → cpu.registers.get src1 = a₂ →
      m'.translate_address a₂ = .ok pa₂ →
      cacheLineAligned pa₂ = cacheLineAligned pa →
      cpu.exec_atomic_insn (.StoreConditionalWord src1 src2 dst aq rl) =
        some { cpu with mem := m', registers := cpu.registers.set dst 1 }) := by
  subst hpa
  have hev := write_slice_evicts vs m a m' k pb hws hk hmap
  refine ⟨hev, ?_, ?_⟩
  · intro a₂ hart v₂ pa₂ htr hline
    exact sc_word_fails m' a₂ hart v₂ pa₂ htr (hline ▸ hev)
  · intro cpu src1 src2 dst aq rl a₂ pa₂ hmem hsrc1 htr hline
    have hsc := sc_word_fails m' a₂ HART_ID (cpu.registers.get src2 % 2 ^ 32) pa₂ htr
      (hline ▸ hev)
    simp only [WhiskerCpu.exec_atomic_insn, hmem, hsrc1, hsc]
    rfl

/-! ### Claim C2 -/

/-- Claim C2 as amended: when the whole 4-byte word at A lies inside one
physically-backed page (and inside the flat buffer), a load-reserved at A
by hart 0 followed by a store-conditional at A by hart 0 with no
intervening store succeeds: the store-conditional returns true, the word
read back at A is the stored value, and the executing store-conditional
instruction writes 0 to its destination register.  (The original claim
asked this of every A whose own page is physically backed; a word
crossing out of the mapped page makes the store-conditional return false
instead, see the counterexample.) -/
theorem C2_amended_lr_sc_success
    (m : Memory) (A pb v : Nat)
    (hA : A < 2 ^ 64) (hoff : A % 4096 ≤ 4092)
    (hmap : m.mappings (PageBase.fromAddr A) = some (.physBacked pb))
    (hsz : pb + A % 4096 + 3 < m.physSize)
    (hv : v < 2 ^ 32) :
    ∃ w m₂,
      m.load_reserved_word A 0 =
        .ok w { m with reservations :=
          MemoryReservations.reserve m.reservations (pb + A % 4096) 0 } ∧
      Memory.store_conditional_word
        { m with reservations :=
          MemoryReservations.reserve m.reservations (pb + A % 4096) 0 } A 0 v =
        .ok true m₂ ∧
      m₂.read_u32 A = .ok v ∧
      (∀ (cpu : WhiskerCpu) (src1 src2 dst : Fin 32) (aq rl : Bool),
        cpu.mem = { m with reservations :=
          MemoryReservations.reserve m.reservations (pb + A % 4096) 0 } →
        cpu.registers.get src1 = A → cpu.registers.get src2 = v →
        cpu.exec_atomic_insn (.StoreConditionalWord src1 src2 dst aq rl) =
          some { cpu with mem := m₂, registers := cpu.registers.set dst 0 }) := by
  have hfa0 : PageBase.fromAddr A = A - A % 4096 := pageBase_fromAddr_eq A hA
  have htr : m.translate_address A = .ok (pb + A % 4096) :=
    translate_phys m A _ pb hmap (by rw [hfa0]; omega)
  have htrL : Memory.translate_address
      { m with reservations :=
        MemoryReservations.reserve m.reservations (pb + A % 4096) 0 } A =
      .ok (pb + A % 4096) :=
    translate_phys _ A _ pb hmap (by rw [hfa0]; omega)
  have hrdL : Memory.read_u32
      { m with reservations :=
        MemoryReservations.reserve m.reservations (pb + A % 4096) 0 } A =
      .ok (m.phys (pb + A % 4096) + 256 * (m.phys (pb + A % 4096 + 1) +
        256 * (m.phys (pb + A % 4096 + 2) + 256 * (m.phys (pb + A % 4096 + 3) + 256 * 0)))) :=
    read_u32_phys_page _ A _ pb hA hoff hmap rfl hsz
  have hisres : MemoryReservations.is_reserved
      (MemoryReservations.reserve m.reservations (pb + A % 4096) 0) (pb + A % 4096) 0 = true := by
    simp [MemoryReservations.is_reserved, MemoryReservations.reserve]
  have hw4 : Memory.write_u32
      { m with reservations :=
        MemoryReservations.reserve m.reservations (pb + A % 4096) 0 } A v =
      .ok () (physWrite (physWrite (physWrite (physWrite
        { m with reservations :=
          MemoryReservations.reserve m.reservations (pb + A % 4096) 0 }
        (pb + A % 4096) (v % 256))
        (pb + A % 4096 + 1) (v / 256 % 256))
        (pb + A % 4096 + 2) (v / 256 / 256 % 256))
        (pb + A % 4096 + 3) (v / 256 / 256 / 256 % 256)) := by
    show Memory.write_slice _ A (toLeBytes v 4) = _
    rw [show toLeBytes v 4 =
      [v % 256, v / 256 % 256, v / 256 / 256 % 256, v / 256 / 256 / 256 % 256] from rfl]
    exact write4_phys_page _ A (pb + A % 4096) pb _ _ _ _ hA hoff hmap rfl hsz
  have h1 : m.load_reserved_word A 0 =
      .ok (m.phys (pb + A % 4096) + 256 * (m.phys (pb + A % 4096 + 1) +
        256 * (m.phys (pb + A % 4096 + 2) + 256 * (m.phys (pb + A % 4096 + 3) + 256 * 0))))
      { m with reservations :=
        MemoryReservations.reserve m.reservations (pb + A % 4096) 0 } := by
    simp only [Memory.load_reserved_word, htr, hrdL]
  have h2 : Memory.store_conditional_word
      { m with reservations :=
        MemoryReservations.reserve m.reservations (pb + A % 4096) 0 } A 0 v =
      .ok true { physWrite (physWrite (physWrite (physWrite
          { m with reservations :=
            MemoryReservations.reserve m.reservations (pb + A % 4096) 0 }
          (pb + A % 4096) (v % 256))
          (pb + A % 4096 + 1) (v / 256 % 256))
          (pb + A % 4096 + 2) (v / 256 / 256 % 256))
          (pb + A % 4096 + 3) (v / 256 / 256 / 256 % 256) with
        reservations := MemoryReservations.unreserve
          (physWrite (physWrite (physWrite (physWrite
            { m with reservations :=
              MemoryReservations.reserve m.reservations (pb + A % 4096) 0 }
            (pb + A % 4096) (v % 256))
            (pb + A % 4096 + 1) (v / 256 % 256))
            (pb + A % 4096 + 2) (v / 256 / 256 % 256))
            (pb + A % 4096 + 3) (v / 256 / 256 / 256 % 256)).reservations
          (pb + A % 4096) } := by
    simp only [Memory.store_conditional_word, htrL, hisres, hw4]
    simp
  have h3 : Memory.read_u32
      { physWrite (physWrite (physWrite (physWrite
          { m with reservations :=
            MemoryReservations.reserve m.reservations (pb + A % 4096) 0 }
          (pb + A % 4096) (v % 256))
          (pb + A % 4096 + 1) (v / 256 % 256))
          (pb + A % 4096 + 2) (v / 256 / 256 % 256))
          (pb + A % 4096 + 3) (v / 256 / 256 / 256 % 256) with
        reservations := MemoryReservations.unreserve
          (physWrite (physWrite (physWrite (physWrite
            { m with reservations :=
              MemoryReservations.reserve m.reservations (pb + A % 4096) 0 }
            (pb + A % 4096) (v % 256))
            (pb + A % 4096 + 1) (v / 256 % 256))
            (pb + A % 4096 + 2) (v / 256 / 256 % 256))
            (pb + A % 4096 + 3) (v / 256 / 256 / 256 % 256)).reservations
          (pb + A % 4096) } A = .ok v := by
    have hrd2 := read_u32_phys_page
      { physWrite (physWrite (physWrite (physWrite
          { m with reservations :=
            MemoryReservations.reserve m.reservations (pb + A % 4096) 0 }
          (pb + A % 4096) (v % 256))
          (pb + A % 4096 + 1) (v / 256 % 256))
          (pb + A % 4096 + 2) (v / 256 / 256 % 256))
          (pb + A % 4096 + 3) (v / 256 / 256 / 256 % 256) with
        reservations := MemoryReservations.unreserve
          (physWrite (physWrite (physWrite (physWrite
            { m with reservations :=
              MemoryReservations.reserve m.reservations (pb + A % 4096) 0 }
            (pb + A % 4096) (v % 256))
            (pb + A % 4096 + 1) (v / 256 % 256))
            (pb + A % 4096 + 2) (v / 256 / 256 % 256))
            (pb + A % 4096 + 3) (v / 256 / 256 / 256 % 256)).reservations
          (pb + A % 4096) }
      A (pb + A % 4096) pb hA hoff hmap rfl hsz
    rw [hrd2]
    have e0 : ({ physWrite (physWrite (physWrite (physWrite
          { m with reservations :=
            MemoryReservations.reserve m.reservations (pb + A % 4096) 0 }
          (pb + A % 4096) (v % 256))
          (pb + A % 4096 + 1) (v / 256 % 256))
          (pb + A % 4096 + 2) (v / 256 / 256 % 256))
          (pb + A % 4096 + 3) (v / 256 / 256 / 256 % 256) with
        reservations := MemoryReservations.unreserve
          (physWrite (physWrite (physWrite (physWrite
            { m with reservations :=
              MemoryReservations.reserve m.reservations (pb + A % 4096) 0 }
            (pb + A % 4096) (v % 256))
            (pb + A % 4096 + 1) (v / 256 % 256))
            (pb + A % 4096 + 2) (v / 256 / 256 % 256))
            (pb + A % 4096 + 3) (v / 256 / 256 / 256 % 256)).reservations
          (pb + A % 4096) }).phys (pb + A % 4096) = v % 256 := by
      simp only [physWrite]
      split_ifs <;> omega
    have e1 : ({ physWrite (physWrite (physWrite (physWrite
          { m with reservations :=
            MemoryReservations.reserve m.reservations (pb + A % 4096) 0 }
          (pb + A % 4096) (v % 256))
          (pb + A % 4096 + 1) (v / 256 % 256))
          (pb + A % 4096 + 2) (v / 256 / 256 % 256))
          (pb + A % 4096 + 3) (v / 256 / 256 / 256 % 256) with
        reservations := MemoryReservations.unreserve
          (physWrite (physWrite (physWrite (physWrite
            { m with reservations :=
              MemoryReservations.reserve m.reservations (pb + A % 4096) 0 }
            (pb + A % 4096) (v % 256))
            (pb + A % 4096 + 1) (v / 256 % 256))
            (pb + A % 4096 + 2) (v / 256 / 256 % 256))
            (pb + A % 4096 + 3) (v / 256 / 256 / 256 % 256)).reservations
          (pb + A % 4096) }).phys (pb + A % 4096 + 1) = v / 256 % 256 := by
      simp only [physWrite]
      split_ifs <;> omega
    have e2 : ({ physWrite (physWrite (physWrite (physWrite
          { m with reservations :=
            MemoryReservations.reserve m.reservations (pb + A % 4096) 0 }
          (pb + A % 4096) (v % 256))
          (pb + A % 4096 + 1) (v / 256 % 256))
          (pb + A % 4096 + 2) (v / 256 / 256 % 256))
          (pb + A % 4096 + 3) (v / 256 / 256 / 256 % 256) with
        reservations := MemoryReservations.unreserve
          (physWrite (physWrite (physWrite (physWrite
            { m with reservations :=
              MemoryReservations.reserve m.reservations (pb + A % 4096) 0 }
            (pb + A % 4096) (v % 256))
            (pb + A % 4096 + 1) (v / 256 % 256))
            (pb + A % 4096 + 2) (v / 256 / 256 % 256))
            (pb + A % 4096 + 3) (v / 256 / 256 / 256 % 256)).reservations
          (pb + A % 4096) }).phys (pb + A % 4096 + 2) = v / 256 / 256 % 256 := by
      simp only [physWrite]
      split_ifs <;> omega
    have e3 : ({ physWrite (physWrite (physWrite (physWrite
          { m with reservations :=
            MemoryReservations.reserve m.reservations (pb + A % 4096) 0 }
          (pb + A % 4096) (v % 256))
          (pb + A % 4096 + 1) (v / 256 % 256))
          (pb + A % 4096 + 2) (v / 256 / 256 % 256))
          (pb + A % 4096 + 3) (v / 256 / 256 / 256 % 256) with
        reservations := MemoryReservations.unreserve
          (physWrite (physWrite (physWrite (physWrite
            { m with reservations :=
              MemoryReservations.reserve m.reservations (pb + A % 4096) 0 }
            (pb + A % 4096) (v % 256))
            (pb + A % 4096 + 1) (v / 256 % 256))
            (pb + A % 4096 + 2) (v / 256 / 256 % 256))
            (pb + A % 4096 + 3) (v / 256 / 256 / 256 % 256)).reservations
          (pb + A % 4096) }).phys (pb + A % 4096 + 3) = v / 256 / 256 / 256 % 256 := by
      simp only [physWrite]
      split_ifs <;> omega
    rw [e0, e1, e2, e3]
    congr 1
    omega
  have h4 : ∀ (cpu : WhiskerCpu) (src1 src2 dst : Fin 32) (aq rl : Bool),
      cpu.mem = { m with reservations :=
        MemoryReservations.reserve m.reservations (pb + A % 4096) 0 } →
      cpu.registers.get src1 = A → cpu.registers.get src2 = v →
      cpu.exec_atomic_insn (.StoreConditionalWord src1 src2 dst aq rl) =
        some { cpu with
               mem := { physWrite (physWrite (physWrite (physWrite
                   { m with reservations :=
                     MemoryReservations.reserve m.reservations (pb + A % 4096) 0 }
                   (pb + A % 4096) (v % 256))
                   (pb + A % 4096 + 1) (v / 256 % 256))
                   (pb + A % 4096 + 2) (v / 256 / 256 % 256))
                   (pb + A % 4096 + 3) (v / 256 / 256 / 256 % 256) with
                 reservations := MemoryReservations.unreserve
                   (physWrite (physWrite (physWrite (physWrite
                     { m with reservations :=
                       MemoryReservations.reserve m.reservations (pb + A % 4096) 0 }
                     (pb + A % 4096) (v % 256))
                     (pb + A % 4096 + 1) (v / 256 % 256))
                     (pb + A % 4096 + 2) (v / 256 / 256 % 256))
                     (pb + A % 4096 + 3) (v / 256 / 256 / 256 % 256)).reservations
                   (pb + A % 4096) },
               registers := cpu.registers.set dst 0 } := by
    intro cpu src1 src2 dst aq rl hmem hs1 hs2
    simp only [WhiskerCpu.exec_atomic_insn, hmem, hs1, hs2, HART_ID,
      Nat.mod_eq_of_lt hv, h2]
    simp
  exact ⟨_, _, h1, h2, h3, h4⟩
/-- Claim C2, counterexample to the original statement: in a memory whose
only mapping is the physically-backed page at 0x1000, the address 0x1FFD
maps to a physically-backed page, yet after a load-reserved at 0x1FFD by
hart 0 the store-conditional at 0x1FFD by hart 0 (no intervening store)
returns false, because the 4-byte word runs off the mapped page. -/
theorem C2_counterexample_word_crosses_page :
    physMem.mappings (PageBase.fromAddr 0x1FFD) = some (.physBacked 0) ∧
    physMem.load_reserved_word 0x1FFD 0 =
      .fault 0x2000 { physMem with reservations := MemoryReservations.reserve physMem.reservations 0xFFD 0 } ∧
    Memory.store_conditional_word { physMem with reservations := MemoryReservations.reserve physMem.reservations 0xFFD 0 } 0x1FFD 0 0xCAFEBABE =
      .ok false { physWrite (physWrite (physWrite { physMem with reservations := MemoryReservations.reserve physMem.reservations 0xFFD 0 } 0xFFD 0xBE) 0xFFE 0xBA) 0xFFF 0xFE with reservations := MemoryReservations.unreserve (physWrite (physWrite (physWrite { physMem with reservations := MemoryReservations.reserve physMem.reservations 0xFFD 0 } 0xFFD 0xBE) 0xFFE 0xBA) 0xFFF 0xFE).reservations 0xFFD } :=
  ⟨rfl, rfl, rfl⟩

/-- Witness for the amended C2 at a concrete input: the word at 0x1000
lies inside the mapped page of the test memory. -/
theorem C2_amended_lr_sc_success_witness :
    physMem.mappings (PageBase.fromAddr 0x1000) = some (.physBacked 0) ∧
    ∃ w m₂,
      physMem.load_reserved_word 0x1000 0 =
        .ok w { physMem with reservations := MemoryReservations.reserve physMem.reservations 0 0 } ∧
      Memory.store_conditional_word { physMem with reservations := MemoryReservations.reserve physMem.reservations 0 0 } 0x1000 0 0xCAFEBABE =
        .ok true m₂ ∧
      m₂.read_u32 0x1000 = .ok 0xCAFEBABE ∧
      (∀ (cpu : WhiskerCpu) (src1 src2 dst : Fin 32) (aq rl : Bool),
        cpu.mem = { physMem with reservations := MemoryReservations.reserve physMem.reservations 0 0 } →
        cpu.registers.get src1 = 0x1000 → cpu.registers.get src2 = 0xCAFEBABE →
        cpu.exec_atomic_insn (.StoreConditionalWord src1 src2 dst aq rl) =
          some { cpu with mem := m₂, registers := cpu.registers.set dst 0 }) :=
  ⟨rfl, C2_amended_lr_sc_success physMem 0x1000 0 0xCAFEBABE (by decide) (by decide)
    rfl (by decide) (by decide)⟩

/-- Witness for C3 at a concrete input: write the byte 7 through the
mapped page at 0x1000 while hart 5 holds a reservation on physical line
0; the write evicts it and a following store-conditional by hart 5 at
0x1000 fails with destination 1 and memory unchanged. -/
theorem C3_plain_store_evicts_reservation_witness :
    resMem.write_slice 0x1000 [7] = .ok () (physWrite resMem 0 7) ∧
    resMem.mappings (PageBase.fromAddr (0x1000 + 0)) = some (.physBacked 0) ∧
    ((physWrite resMem 0 7).reservations (cacheLineAligned 0) = none ∧
    (∀ a₂ hart v₂ pa₂, (physWrite resMem 0 7).translate_address a₂ = .ok pa₂ →
      cacheLineAligned pa₂ = cacheLineAligned 0 →
      (physWrite resMem 0 7).store_conditional_word a₂ hart v₂ =
        .ok false (physWrite resMem 0 7)) ∧
    (∀ (cpu : WhiskerCpu) (src1 src2 dst : Fin 32) (aq rl : Bool) (a₂ pa₂ : Nat),
      cpu.mem = physWrite resMem 0 7 → cpu.registers.get src1 = a₂ →
      (physWrite resMem 0 7).translate_address a₂ = .ok pa₂ →
      cacheLineAligned pa₂ = cacheLineAligned 0 →
      cpu.exec_atomic_insn (.StoreConditionalWord src1 src2 dst aq rl) =
        some { cpu with
               mem := physWrite resMem 0 7,
               registers := cpu.registers.set dst 1 })) :=
  ⟨rfl, rfl,
   C3_plain_store_evicts_reservation resMem 0x1000 [7] (physWrite resMem 0 7) 0 0 0
     rfl (by decide) rfl (by decide)⟩

/-! ### Claim C10 -/

/-- Claim C10 as amended: the load-reserved and store-conditional forms
panic the host (via the expect on the memory result) whenever their
effective address fails to translate - that is, on unmapped, Bootrom and
MMIO pages alike - and every atomic instruction panics when the effective
address is unmapped; but the AMO forms do not call translate_address at
all, so on Bootrom or MMIO pages they read and write through the page
entry normally instead of panicking (see the counterexample).  No
load- or store-page-fault trap is requested on any of these paths. -/
theorem C10_amended_atomics_panic (cpu : WhiskerCpu) (insn : AtomicInstruction) :
    (insn.isLrSc = true →
      cpu.mem.translate_address (cpu.registers.get insn.addrReg) =
        .fault (cpu.registers.get insn.addrReg) →
      cpu.exec_atomic_insn insn = none) ∧
    (cpu.mem.mappings (PageBase.fromAddr (cpu.registers.get insn.addrReg)) = none →
      cpu.exec_atomic_insn insn = none) := by
  have hw : ∀ a, cpu.mem.mappings (PageBase.fromAddr a) = none →
      cpu.mem.read_u32 a = .fault a := fun a h => read_u32_fault_unmapped cpu.mem a h
  have hd : ∀ a, cpu.mem.mappings (PageBase.fromAddr a) = none →
      cpu.mem.read_u64 a = .fault a := fun a h => read_u64_fault_unmapped cpu.mem a h
  have ht : ∀ a, cpu.mem.mappings (PageBase.fromAddr a) = none →
      cpu.mem.translate_address a = .fault a :=
    fun a h => translate_fault_unmapped cpu.mem a h
  cases insn <;>
    refine ⟨fun hlr htr => ?_, fun hun => ?_⟩ <;>
    first
    | (simp only [AtomicInstruction.addrReg] at htr
       simp [WhiskerCpu.exec_atomic_insn, Memory.load_reserved_word,
         Memory.store_conditional_word, Memory.load_reserved_dword,
         Memory.store_conditional_dword, htr]
       done)
    | simp [AtomicInstruction.isLrSc] at hlr
    | (simp only [AtomicInstruction.addrReg] at hun
       first
       | (simp [WhiskerCpu.exec_atomic_insn, Memory.load_reserved_word,
            Memory.store_conditional_word, Memory.load_reserved_dword,
            Memory.store_conditional_dword, ht _ hun]
          done)
       | (simp [WhiskerCpu.exec_atomic_insn, Memory.atomic_op_word, hw _ hun]
          done)
       | (simp [WhiskerCpu.exec_atomic_insn, Memory.atomic_op_dword, hd _ hun]
          done))

/-- Claim C10, counterexample to the original statement: an AMO add-word
whose effective address lies on a Bootrom page does not panic - it
executes normally (the atomic read and write go through the bootrom page
entry), because the AMO path never calls translate_address. -/
theorem C10_counterexample_amo_on_bootrom_executes :
    romMem.mappings (PageBase.fromAddr (cpuRom.registers.get 1)) = some (.bootrom 0) ∧
    (cpuRom.exec_atomic_insn (.AddWord 1 2 3 false false)).isSome = true :=
  ⟨rfl, rfl⟩

/-- Witness for the amended C10 at concrete inputs: a load-reserved at a
Bootrom address panics, and an AMO add-word at an unmapped address
panics. -/
theorem C10_amended_atomics_panic_witness :
    cpuRom.exec_atomic_insn (.LoadReservedWord 1 2 false false) = none ∧
    cpuEmpty.exec_atomic_insn (.AddWord 1 2 3 false false) = none :=
  ⟨(C10_amended_atomics_panic cpuRom (.LoadReservedWord 1 2 false false)).1 rfl rfl,
   (C10_amended_atomics_panic cpuEmpty (.AddWord 1 2 3 false false)).2 rfl⟩

end Whisker
